import Mathlib

/-!
Shallow embedding of the `loading_order_flow_v1` order-flow engine
(`controllers/directional_trading/loading_order_flow_v1_components/`):
range bars, cumulative volume delta (CVD), volume profiles, POC confluence
tracking, trade validation and the per-trade processing pipeline of
`MarketDataManager`.

Python `Decimal` values are modelled as `ℚ` (exact arithmetic); `float`
timestamps are modelled as `ℚ` after validation, and as `FloatVal` (finite,
NaN or ±∞) at the validator boundary where IEEE special values matter.
Python dicts are modelled as insertion-ordered association lists, and
`collections.deque(maxlen=m)` as a list with eviction from the left.
-/

namespace OrderFlow

/-- Side of a trade, from `OrderBookTradeEvent.type.name`. -/
inductive Side
  | buy
  | sell
deriving DecidableEq, Repr

/-- Lookup in an insertion-ordered association list (Python `dict.get`). -/
def alGet (l : List (ℚ × ℚ)) (k : ℚ) : Option ℚ :=
  (l.find? (fun p => decide (p.1 = k))).map Prod.snd

/-- Assignment in an insertion-ordered association list (Python dict item
assignment): an existing key keeps its position, a new key is appended. -/
def alSet (l : List (ℚ × ℚ)) (k v : ℚ) : List (ℚ × ℚ) :=
  if l.any (fun p => decide (p.1 = k)) then
    l.map (fun p => if p.1 = k then (k, v) else p)
  else l ++ [(k, v)]

/-- Truncation toward zero, the rounding used by Python `Decimal` floor
division `//` (decimal `divide-int`). -/
def decTrunc (x : ℚ) : ℤ :=
  if 0 ≤ x then ⌊x⌋ else ⌈x⌉

/-- Append to a Python `deque(maxlen := m)`: when full, the oldest entries
are evicted from the left. -/
def pushMaxlen {α : Type} (m : ℕ) (l : List α) (a : α) : List α :=
  if l.length < m then l ++ [a] else (l ++ [a]).drop (l.length + 1 - m)

/-- The field of `data_types.VolumeProfile`: price-bucketed volume and
signed-delta histogram for one range bar. -/
structure VolumeProfile where
  tick_size : ℚ
  volume_by_price : List (ℚ × ℚ) := []
  delta_by_price : List (ℚ × ℚ) := []
deriving DecidableEq, Repr

/-- Python `(price // self.tick_size) * self.tick_size`. -/
def VolumeProfile.normalize_price (vp : VolumeProfile) (price : ℚ) : ℚ :=
  ((decTrunc (price / vp.tick_size) : ℤ) : ℚ) * vp.tick_size

/-- Point of control: the first-inserted bucket with maximal volume
(Python `max` over dict items keeps the first maximum). -/
def VolumeProfile.poc (vp : VolumeProfile) : Option ℚ :=
  match vp.volume_by_price with
  | [] => none
  | x :: xs => some ((xs.foldl (fun best p => if best.2 < p.2 then p else best) x).1)

/-- Volume at the point of control (Python `max` over dict values). -/
def VolumeProfile.poc_volume (vp : VolumeProfile) : Option ℚ :=
  match vp.volume_by_price with
  | [] => none
  | x :: xs => some (xs.foldl (fun m p => max m p.2) x.2)

/-- The method `VolumeProfile.update`: accumulate volume and signed delta into the
bucket of `price`. -/
def VolumeProfile.update (vp : VolumeProfile) (price volume volume_delta : ℚ) :
    VolumeProfile :=
  let normalized_price := vp.normalize_price price
  { vp with
    volume_by_price :=
      alSet vp.volume_by_price normalized_price
        ((alGet vp.volume_by_price normalized_price).getD 0 + volume)
    delta_by_price :=
      alSet vp.delta_by_price normalized_price
        ((alGet vp.delta_by_price normalized_price).getD 0 + volume_delta) }

/-- The dataclass `data_types.RangeBar`. -/
structure RangeBar where
  open_ : ℚ
  high : ℚ
  low : ℚ
  close : ℚ
  volume : ℚ
  timestamp_start : ℚ
  timestamp_end : Option ℚ := none
  trade_count : ℕ := 0
  volume_profile : Option VolumeProfile := none
deriving DecidableEq, Repr

/-- The dataclass `data_types.CVDCandle`. -/
structure CVDCandle where
  open_ : ℚ
  high : ℚ
  low : ℚ
  close : ℚ
deriving DecidableEq, Repr

namespace RangeBarBuilder

/-- The method `RangeBarBuilder.should_create_new_bar`. -/
def should_create_new_bar (range_size : ℚ) (current_bar : Option RangeBar)
    (price : ℚ) : Bool :=
  match current_bar with
  | none => true
  | some bar =>
    let potential_high := max bar.high price
    let potential_low := min bar.low price
    let potential_range := potential_high - potential_low
    decide (range_size ≤ potential_range)

/-- The method `RangeBarBuilder.create_bar`. -/
def create_bar (price volume timestamp : ℚ) : RangeBar :=
  { open_ := price
    high := price
    low := price
    close := price
    volume := volume
    timestamp_start := timestamp
    trade_count := 1 }

/-- The method `RangeBarBuilder.update_bar`. -/
def update_bar (bar : RangeBar) (price volume : ℚ) : RangeBar :=
  { bar with
    high := max bar.high price
    low := min bar.low price
    close := price
    volume := bar.volume + volume
    trade_count := bar.trade_count + 1 }

end RangeBarBuilder

/-- The mutable state of `RangeBarManager` (display string omitted). -/
structure RangeBarManagerState where
  range_size : ℚ
  volume_tick_size : ℚ
  max_history : ℕ
  current_bar : Option RangeBar := none
  current_range_low : Option ℚ := none
  current_range_high : Option ℚ := none
  completed_bars : List RangeBar := []
  first_trade_processed : Bool := false
deriving DecidableEq, Repr

namespace RangeBarManager

/-- The method `RangeBarManager._set_range_bounds`. -/
def set_range_bounds (s : RangeBarManagerState) (price : ℚ) : RangeBarManagerState :=
  let half_range := s.range_size / 2
  { s with
    current_range_low := some (price - half_range)
    current_range_high := some (price + half_range) }

/-- The method `RangeBarManager._update_range_bounds`. -/
def update_range_bounds (s : RangeBarManagerState) : RangeBarManagerState :=
  match s.current_bar with
  | none => s
  | some bar =>
    let bar_range := bar.high - bar.low
    let remaining_range := s.range_size - bar_range
    if 0 < remaining_range then
      let half_remaining := remaining_range / 2
      { s with
        current_range_low := some (bar.low - half_remaining)
        current_range_high := some (bar.high + half_remaining) }
    else
      { s with
        current_range_low := some bar.low
        current_range_high := some bar.high }

/-- The method `RangeBarManager._initialize_first_bar`. -/
def initialize_first_bar (s : RangeBarManagerState) (price volume timestamp : ℚ) :
    RangeBarManagerState :=
  let s1 := set_range_bounds s price
  { s1 with
    current_bar := some
      { RangeBarBuilder.create_bar price volume timestamp with
        volume_profile := some { tick_size := s.volume_tick_size } }
    first_trade_processed := true }

/-- The method `RangeBarManager._create_new_bar`. -/
def create_new_bar (s : RangeBarManagerState) (price volume timestamp : ℚ) :
    RangeBarManagerState :=
  let s1 := set_range_bounds s price
  { s1 with
    current_bar := some
      { RangeBarBuilder.create_bar price volume timestamp with
        volume_profile := some { tick_size := s.volume_tick_size } } }

/-- The method `RangeBarManager._complete_current_bar`: stamp the end time on the
current bar and append it to the bounded history. -/
def complete_current_bar (s : RangeBarManagerState) (timestamp : ℚ) :
    Option RangeBar × RangeBarManagerState :=
  match s.current_bar with
  | none => (none, s)
  | some bar =>
    let done := { bar with timestamp_end := some timestamp }
    (some done,
     { s with
       current_bar := some done
       completed_bars := pushMaxlen s.max_history s.completed_bars done })

/-- The method `RangeBarManager.process_trade`: returns
`(is_new_bar, completed_bar, new state)`. -/
def process_trade (s : RangeBarManagerState) (price volume timestamp : ℚ) :
    Bool × Option RangeBar × RangeBarManagerState :=
  if s.first_trade_processed = false then
    (true, none, initialize_first_bar s price volume timestamp)
  else
    match s.current_bar with
    | none => (true, none, create_new_bar s price volume timestamp)
    | some bar =>
      if RangeBarBuilder.should_create_new_bar s.range_size (some bar) price then
        let r := complete_current_bar s timestamp
        (true, r.1, create_new_bar r.2 price volume timestamp)
      else
        let s1 := { s with current_bar := some (RangeBarBuilder.update_bar bar price volume) }
        (false, none, update_range_bounds s1)

end RangeBarManager

/-- The static method `CVDCalculator.calculate_volume_delta` on a validated trade:
signed volume, positive for a buy. -/
def CVDCalculator.calculate_volume_delta (side : Side) (volume : ℚ) : ℚ :=
  match side with
  | .buy => volume
  | .sell => -volume

/-- The mutable state of `CVDManager`. -/
structure CVDManagerState where
  max_history : ℕ
  cumulative_cvd : ℚ := 0
  current_bar_cvd : ℚ := 0
  current_cvd_candle : Option CVDCandle := none
  completed_cvd_candles : List CVDCandle := []
  last_reset_timestamp : ℚ := 0
deriving DecidableEq, Repr

/-- UTC calendar day of a Unix timestamp, as days since the epoch: two
timestamps have the same `datetime.fromtimestamp(ts, timezone.utc).date()`
iff they have the same `utcDay`, and the date order is the `utcDay` order. -/
def utcDay (timestamp : ℚ) : ℤ := ⌊timestamp / 86400⌋

namespace CVDManager

/-- The method `CVDManager._update_cvd_candle`. -/
def update_cvd_candle (s : CVDManagerState) : CVDManagerState :=
  match s.current_cvd_candle with
  | none =>
    let cvd_open :=
      match s.completed_cvd_candles.getLast? with
      | some prev => prev.close
      | none =>
        if s.cumulative_cvd = s.current_bar_cvd then (0 : ℚ)
        else s.cumulative_cvd - s.current_bar_cvd
    { s with
      current_cvd_candle := some
        { open_ := cvd_open
          high := s.cumulative_cvd
          low := s.cumulative_cvd
          close := s.cumulative_cvd } }
  | some c =>
    { s with
      current_cvd_candle := some
        { c with
          high := max c.high s.cumulative_cvd
          low := min c.low s.cumulative_cvd
          close := s.cumulative_cvd } }

/-- The method `CVDManager.process_trade` on a validated trade: returns the volume
delta and the new state. -/
def process_trade (s : CVDManagerState) (side : Side) (volume : ℚ)
    (is_new_bar : Bool) : ℚ × CVDManagerState :=
  let volume_delta := CVDCalculator.calculate_volume_delta side volume
  let s1 :=
    { s with
      cumulative_cvd := s.cumulative_cvd + volume_delta
      current_bar_cvd :=
        if is_new_bar then volume_delta else s.current_bar_cvd + volume_delta }
  (volume_delta, update_cvd_candle s1)

/-- The method `CVDManager.complete_candle`. -/
def complete_candle (s : CVDManagerState) : Option CVDCandle × CVDManagerState :=
  match s.current_cvd_candle with
  | none => (none, s)
  | some c =>
    (some c,
     { s with
       completed_cvd_candles := pushMaxlen s.max_history s.completed_cvd_candles c
       current_cvd_candle := none })

/-- The method `CVDManager.reset`. -/
def reset (s : CVDManagerState) : CVDManagerState :=
  { s with cumulative_cvd := 0, current_bar_cvd := 0 }

/-- The method `CVDManager.check_and_reset`. -/
def check_and_reset (s : CVDManagerState) (timestamp : ℚ) :
    Bool × CVDManagerState :=
  if utcDay s.last_reset_timestamp < utcDay timestamp then
    (true, { reset s with last_reset_timestamp := timestamp })
  else
    (false, s)

end CVDManager

/-- One entry of `POCTracker.poc_history` (the wall-clock capture time, which no
query depends on, is omitted). -/
structure POCObservation where
  price : ℚ
  volume : ℚ
deriving DecidableEq, Repr

/-- The mutable state of `poc_tracker.POCTracker`. -/
structure POCTrackerState where
  lookback_bars : ℕ
  tick_size : ℚ
  poc_history : List POCObservation := []
  confluence_levels : List (ℚ × ℕ) := []
deriving DecidableEq, Repr

/-- Increment a counter in an insertion-ordered count map (Python
`d[k] = d.get(k, 0) + 1`). -/
def alBump (l : List (ℚ × ℕ)) (k : ℚ) : List (ℚ × ℕ) :=
  if l.any (fun p => decide (p.1 = k)) then
    l.map (fun p => if p.1 = k then (p.1, p.2 + 1) else p)
  else l ++ [(k, 1)]

/-- Stable insertion into a count-descending list: the new entry goes after all
strictly greater counts and before equal ones, matching the stability of
Python `sorted(..., reverse=True)`. -/
def insertByCountDesc (x : ℚ × ℕ) : List (ℚ × ℕ) → List (ℚ × ℕ)
  | [] => [x]
  | y :: ys => if x.2 < y.2 then y :: insertByCountDesc x ys else x :: y :: ys

/-- Stable sort by count descending. -/
def sortByCountDesc (l : List (ℚ × ℕ)) : List (ℚ × ℕ) :=
  l.foldr insertByCountDesc []

namespace POCTracker

/-- The method `POCTracker._normalize_price`. -/
def normalize_price (s : POCTrackerState) (price : ℚ) : ℚ :=
  ((decTrunc (price / s.tick_size) : ℤ) : ℚ) * s.tick_size

/-- The method `POCTracker._update_confluence`: rebuild the bucket-to-count map from
the POC window, in encounter order. -/
def update_confluence (s : POCTrackerState) : POCTrackerState :=
  { s with
    confluence_levels := s.poc_history.foldl (fun acc ob => alBump acc ob.price) [] }

/-- The method `POCTracker.add_poc`. -/
def add_poc (s : POCTrackerState) (poc_price volume : ℚ) : POCTrackerState :=
  let normalized_poc := normalize_price s poc_price
  let s1 :=
    { s with
      poc_history :=
        pushMaxlen s.lookback_bars s.poc_history
          { price := normalized_poc, volume := volume } }
  update_confluence s1

/-- The method `POCTracker.get_strongest_levels`. -/
def get_strongest_levels (s : POCTrackerState) (top_n : ℕ) : List (ℚ × ℕ) :=
  (sortByCountDesc s.confluence_levels).take top_n

end POCTracker

/-- The counters of `metrics.MetricsCollector` (wall-clock fields omitted). -/
structure MetricsState where
  enabled : Bool := true
  trades_processed : ℕ := 0
  bars_completed : ℕ := 0
  errors_count : ℕ := 0
  cvd_reset_events : ℕ := 0
deriving DecidableEq, Repr

namespace MetricsCollector

/-- The method `MetricsCollector.record_trade`. -/
def record_trade (m : MetricsState) : MetricsState :=
  if m.enabled then { m with trades_processed := m.trades_processed + 1 } else m

/-- The method `MetricsCollector.record_bar_completion`. -/
def record_bar_completion (m : MetricsState) : MetricsState :=
  if m.enabled then { m with bars_completed := m.bars_completed + 1 } else m

/-- The method `MetricsCollector.record_error`. -/
def record_error (m : MetricsState) : MetricsState :=
  if m.enabled then { m with errors_count := m.errors_count + 1 } else m

/-- The call `MetricsCollector.record_event "cvd_reset"`. -/
def record_cvd_reset (m : MetricsState) : MetricsState :=
  if m.enabled then { m with cvd_reset_events := m.cvd_reset_events + 1 } else m

end MetricsCollector

/-- A raw field value as delivered by the feed, as seen through
`Decimal(str(x))` / `float(x)`: a finite number, an IEEE special value, or
something that does not parse as a number at all. -/
inductive RawVal
  | num (q : ℚ)
  | nan
  | inf
  | neginf
  | unparsable
deriving DecidableEq, Repr

/-- Which trade field a validation error identifies. -/
inductive ValField
  | price
  | volume
  | timestamp
deriving DecidableEq, Repr

/-- A Python float value, as produced by `float(timestamp)`. -/
inductive FloatVal
  | num (q : ℚ)
  | nan
  | inf
  | neginf
deriving DecidableEq, Repr

namespace TradeValidator

/-- The static method `TradeValidator.validate_price`. A NaN price is rejected
because `Decimal("NaN") <= 0` raises `InvalidOperation`, which the
surrounding `except` turns into the price error; `-Infinity` fails the
positivity check and `Infinity` the `is_infinite` check. -/
def validate_price : RawVal → Except ValField ℚ
  | .unparsable => .error .price
  | .nan => .error .price
  | .inf => .error .price
  | .neginf => .error .price
  | .num q => if q ≤ 0 then .error .price else .ok q

/-- The static method `TradeValidator.validate_volume`: rejects negative,
NaN (via the raising comparison), infinite and unparsable volumes. -/
def validate_volume : RawVal → Except ValField ℚ
  | .unparsable => .error .volume
  | .nan => .error .volume
  | .inf => .error .volume
  | .neginf => .error .volume
  | .num q => if q < 0 then .error .volume else .ok q

/-- The static method `TradeValidator.validate_timestamp`. The only checks in the
source are `float(timestamp)` (rejecting unparsable input) and
`timestamp_float < 0`; since `nan < 0` and `inf < 0` are both `False` in
IEEE arithmetic, NaN and `+Infinity` timestamps are accepted, while
`-Infinity` is rejected as negative. -/
def validate_timestamp : RawVal → Except ValField FloatVal
  | .unparsable => .error .timestamp
  | .nan => .ok .nan
  | .inf => .ok .inf
  | .neginf => .error .timestamp
  | .num q => if q < 0 then .error .timestamp else .ok (.num q)

/-- The method `TradeValidator.validate_trade`: price, then volume, then
timestamp; the first failure wins. -/
def validate_trade (price volume timestamp : RawVal) :
    Except ValField (ℚ × ℚ × FloatVal) := do
  let p ← validate_price price
  let v ← validate_volume volume
  let t ← validate_timestamp timestamp
  return (p, v, t)

end TradeValidator

/-- A validated trade, as it flows through the pipeline after
`TradeValidator.validate_trade` succeeds with a finite timestamp. -/
structure TradeEvent where
  price : ℚ
  volume : ℚ
  side : Side
  timestamp : ℚ
deriving DecidableEq, Repr

/-- The whole engine state owned by `MarketDataManager`. -/
structure MarketDataManagerState where
  range_size : ℚ
  volume_tick_size : ℚ
  max_bars_history : ℕ
  cvd : CVDManagerState
  bars : RangeBarManagerState
  poc : POCTrackerState
  metrics : MetricsState
  total_volume_processed : ℚ
  total_trades_processed : ℕ
deriving DecidableEq, Repr

/-- The per-trade result dictionary returned by
`MarketDataManager.process_trade`, plus the CVD candle completed during the
call (the code appends it to history and uses it for the display string). -/
structure StepResult where
  is_new_bar : Bool
  completed_bar : Option RangeBar
  volume_delta : ℚ
  current_cvd : ℚ
  completed_cvd : Option CVDCandle
deriving DecidableEq, Repr

namespace MarketDataManager

/-- The constructor `MarketDataManager.__init__` with a validated configuration. -/
def init (range_size volume_tick_size : ℚ) (max_bars_history : ℕ) :
    MarketDataManagerState :=
  { range_size := range_size
    volume_tick_size := volume_tick_size
    max_bars_history := max_bars_history
    cvd := { max_history := max_bars_history }
    bars :=
      { range_size := range_size
        volume_tick_size := volume_tick_size
        max_history := max_bars_history }
    poc := { lookback_bars := max_bars_history, tick_size := volume_tick_size }
    metrics := {}
    total_volume_processed := 0
    total_trades_processed := 0 }

/-- Step 6 of the pipeline: route the trade into the current bar's volume
profile when both exist. -/
def update_current_profile (s : RangeBarManagerState) (price volume delta : ℚ) :
    RangeBarManagerState :=
  match s.current_bar with
  | none => s
  | some bar =>
    match bar.volume_profile with
    | none => s
    | some vp =>
      { s with
        current_bar := some { bar with volume_profile := some (vp.update price volume delta) } }

/-- The method `MarketDataManager._handle_bar_completion_with_cvd`, restricted to its
state effects: push the completed bar's POC (when the profile has one and it
is truthy, i.e. nonzero) and count the completion. -/
def handle_bar_completion (poc : POCTrackerState) (m : MetricsState)
    (cb : RangeBar) : POCTrackerState × MetricsState :=
  let poc1 :=
    match cb.volume_profile with
    | none => poc
    | some vp =>
      match vp.poc with
      | none => poc
      | some p =>
        if p = 0 then poc else POCTracker.add_poc poc p ((vp.poc_volume).getD 0)
  (poc1, MetricsCollector.record_bar_completion m)

/-- The body of `MarketDataManager.process_trade` on a validated trade, in the
source's order: reset check, bar manager, candle completion, CVD update,
volume-profile update, completion handling, counters. -/
def process_validated (s : MarketDataManagerState) (e : TradeEvent) :
    MarketDataManagerState × StepResult :=
  let rc := CVDManager.check_and_reset s.cvd e.timestamp
  let m1 := if rc.1 then MetricsCollector.record_cvd_reset s.metrics else s.metrics
  let pt := RangeBarManager.process_trade s.bars e.price e.volume e.timestamp
  let is_new_bar := pt.1
  let completed_bar := pt.2.1
  let bars1 := pt.2.2
  let cc := if completed_bar.isSome then CVDManager.complete_candle rc.2 else (none, rc.2)
  let pr := CVDManager.process_trade cc.2 e.side e.volume is_new_bar
  let volume_delta := pr.1
  let cvd3 := pr.2
  let bars2 := update_current_profile bars1 e.price e.volume volume_delta
  let pm :=
    match completed_bar with
    | some cb => handle_bar_completion s.poc m1 cb
    | none => (s.poc, m1)
  ({ s with
     cvd := cvd3
     bars := bars2
     poc := pm.1
     metrics := MetricsCollector.record_trade pm.2
     total_volume_processed := s.total_volume_processed + e.volume
     total_trades_processed := s.total_trades_processed + 1 },
   { is_new_bar := is_new_bar
     completed_bar := completed_bar
     volume_delta := volume_delta
     current_cvd := cvd3.cumulative_cvd
     completed_cvd := cc.1 })

/-- Run a sequence of validated trades, collecting the completed CVD candles
and completed bars in emission order. -/
def run (s : MarketDataManagerState) :
    List TradeEvent → MarketDataManagerState × List CVDCandle × List RangeBar
  | [] => (s, [], [])
  | e :: es =>
    let st := process_validated s e
    let rest := run st.1 es
    (rest.1, st.2.completed_cvd.toList ++ rest.2.1, st.2.completed_bar.toList ++ rest.2.2)

/-- How `MarketDataManager.process_trade` can fail: a validation rejection, or a
runtime error from `datetime.fromtimestamp` on a non-finite validated
timestamp; both are counted by the enclosing `except` before propagating. -/
inductive ProcError
  | validation (f : ValField)
  | runtime
deriving DecidableEq, Repr

/-- The boundary of `MarketDataManager.process_trade` on raw input: validate,
count-and-propagate failures, and otherwise run the validated pipeline. -/
def process_raw (s : MarketDataManagerState) (price volume timestamp : RawVal)
    (side : Side) : MarketDataManagerState × Except ProcError StepResult :=
  match TradeValidator.validate_trade price volume timestamp with
  | .error f =>
    ({ s with metrics := MetricsCollector.record_error s.metrics },
     .error (.validation f))
  | .ok (p, v, ft) =>
    match ft with
    | .num t =>
      let r := process_validated s { price := p, volume := v, side := side, timestamp := t }
      (r.1, .ok r.2)
    | _ =>
      ({ s with metrics := MetricsCollector.record_error s.metrics },
       .error .runtime)

end MarketDataManager

/-- Modelled from the spec, amended to the code's timestamp behavior: price
must parse and be a positive finite number; volume must parse and be a
nonnegative finite number; the timestamp must parse as a float and must not
compare below zero, so NaN and positive infinity pass while negative infinity
and unparsable input fail; the first offending field, in the order price,
volume, timestamp, is reported. -/
def spec_validate_trade (price volume timestamp : RawVal) :
    Except ValField (ℚ × ℚ × FloatVal) :=
  match price with
  | .num p =>
    if 0 < p then
      match volume with
      | .num v =>
        if 0 ≤ v then
          match timestamp with
          | .num t => if 0 ≤ t then .ok (p, v, .num t) else .error .timestamp
          | .nan => .ok (p, v, .nan)
          | .inf => .ok (p, v, .inf)
          | .neginf => .error .timestamp
          | .unparsable => .error .timestamp
        else .error .volume
      | _ => .error .volume
    else .error .price
  | _ => .error .price

/-- A concrete open bar (the spec's worked scenario after two trades),
used by witnesses. -/
def rangeBarWitnessBar : RangeBar :=
  { open_ := 100, high := 108, low := 100, close := 108, volume := 2,
    timestamp_start := 1000, timestamp_end := none, trade_count := 2,
    volume_profile := some { tick_size := 1 } }

/-- A concrete open-bar manager state (range size 20), used by witnesses. -/
def rangeBarWitnessState : RangeBarManagerState :=
  { range_size := 20, volume_tick_size := 1, max_history := 100,
    current_bar := some rangeBarWitnessBar,
    current_range_low := some 94, current_range_high := some 114,
    completed_bars := [], first_trade_processed := true }

/-- A concrete one-trade bar at price 100, used by witnesses. -/
def rangeBarWitnessBar2 : RangeBar :=
  { open_ := 100, high := 100, low := 100, close := 100, volume := 1,
    timestamp_start := 1000, timestamp_end := none, trade_count := 1,
    volume_profile := some { tick_size := 1 } }

/-- A concrete manager state holding `rangeBarWitnessBar2`, used by witnesses. -/
def rangeBarWitnessState2 : RangeBarManagerState :=
  { range_size := 20, volume_tick_size := 1, max_history := 100,
    current_bar := some rangeBarWitnessBar2,
    current_range_low := some 90, current_range_high := some 110,
    completed_bars := [], first_trade_processed := true }

/-- A concrete buy trade on the epoch day, used by witnesses. -/
def cvdSumWitnessTrade1 : TradeEvent :=
  { price := 100, volume := 3, side := .buy, timestamp := 100 }

/-- A concrete sell trade on the epoch day, used by witnesses. -/
def cvdSumWitnessTrade2 : TradeEvent :=
  { price := 101, volume := 1, side := .sell, timestamp := 200 }

/-- A concrete CVD manager state with nonzero CVD, used by witnesses. -/
def cvdWitnessState : CVDManagerState :=
  { max_history := 100, cumulative_cvd := 7, current_bar_cvd := 3,
    current_cvd_candle := some { open_ := 0, high := 7, low := 0, close := 7 },
    completed_cvd_candles := [], last_reset_timestamp := 1000 }

/-- Close of the most recently produced CVD candle, or 0 when none exists
yet. -/
def lastClose : Option CVDCandle → ℚ
  | none => 0
  | some c => c.close

/-- Continuity invariant tying the engine state to the most recently produced
CVD candle `lp`: the retained history ends at `lp`, the active candle opens at
its close, and before any candle exists the CVD state is pristine. -/
def CandleInv (s : MarketDataManagerState) (lp : Option CVDCandle) : Prop :=
  s.cvd.completed_cvd_candles.getLast? = lp
  ∧ (∀ c, s.cvd.current_cvd_candle = some c → c.open_ = lastClose lp)
  ∧ (s.cvd.current_cvd_candle = none →
      lp = none ∧ s.cvd.cumulative_cvd = 0 ∧ s.bars.first_trade_processed = false)

/-- OHLC well-formedness of a range bar. -/
def BarWF (b : RangeBar) : Prop :=
  b.low ≤ b.open_ ∧ b.open_ ≤ b.high ∧ b.low ≤ b.close ∧ b.close ≤ b.high

/-- Well-formedness of a CVD candle. -/
def CandleWF (c : CVDCandle) : Prop := c.low ≤ c.high

/-- All bars and candles held by the engine state are well formed. -/
def WFInv (s : MarketDataManagerState) : Prop :=
  (∀ b, s.bars.current_bar = some b → BarWF b)
  ∧ (∀ b ∈ s.bars.completed_bars, BarWF b)
  ∧ (∀ c, s.cvd.current_cvd_candle = some c → CandleWF c)
  ∧ (∀ c ∈ s.cvd.completed_cvd_candles, CandleWF c)

/-- Every bar held by the engine state spans strictly less than the range
size. -/
def RangeInv (s : MarketDataManagerState) : Prop :=
  0 < s.bars.range_size
  ∧ (∀ b, s.bars.current_bar = some b → b.high - b.low < s.bars.range_size)
  ∧ (∀ b ∈ s.bars.completed_bars, b.high - b.low < s.bars.range_size)

/-- Signed volume (positive for buys, negative for sells) summed over a trade
sequence. -/
def signedVolumeSum (ts : List TradeEvent) : ℚ :=
  (ts.map (fun e => CVDCalculator.calculate_volume_delta e.side e.volume)).sum

/-! ## Helper lemmas -/

theorem getLast?_pushMaxlen {α : Type} (m : ℕ) (hm : 1 ≤ m) (l : List α) (a : α) :
    (pushMaxlen m l a).getLast? = some a := by
  unfold pushMaxlen
  split
  · exact List.getLast?_concat l
  · rw [List.drop_append_of_le_length (by omega), List.getLast?_concat]

theorem mem_pushMaxlen {α : Type} {m : ℕ} {l : List α} {a x : α}
    (h : x ∈ pushMaxlen m l a) : x ∈ l ∨ x = a := by
  unfold pushMaxlen at h
  split at h
  · simpa using h
  · simpa using List.mem_of_mem_drop h

theorem chain'_concat_of {α : Type} {R : α → α → Prop} {l : List α} {c : α}
    (h : List.Chain' R l) (h2 : ∀ x ∈ l.getLast?, R x c) :
    List.Chain' R (l ++ [c]) := by
  rw [List.chain'_append]
  refine ⟨h, List.chain'_singleton c, ?_⟩
  intro x hx y hy
  simp only [List.head?_cons, Option.mem_def, Option.some.injEq] at hy
  subst hy
  exact h2 x hx

/-- Exhaustive branch analysis of `RangeBarManager.process_trade`. -/
theorem bars_process_cases (s : RangeBarManagerState) (p v t : ℚ) :
    (s.first_trade_processed = false ∧
      RangeBarManager.process_trade s p v t =
        (true, none, RangeBarManager.initialize_first_bar s p v t))
    ∨ (s.first_trade_processed = true ∧ s.current_bar = none ∧
      RangeBarManager.process_trade s p v t =
        (true, none, RangeBarManager.create_new_bar s p v t))
    ∨ (∃ bar, s.first_trade_processed = true ∧ s.current_bar = some bar ∧
      RangeBarBuilder.should_create_new_bar s.range_size (some bar) p = true ∧
      RangeBarManager.process_trade s p v t =
        (true, (RangeBarManager.complete_current_bar s t).1,
         RangeBarManager.create_new_bar (RangeBarManager.complete_current_bar s t).2 p v t))
    ∨ (∃ bar, s.first_trade_processed = true ∧ s.current_bar = some bar ∧
      RangeBarBuilder.should_create_new_bar s.range_size (some bar) p = false ∧
      RangeBarManager.process_trade s p v t =
        (false, none, RangeBarManager.update_range_bounds
          { s with current_bar := some (RangeBarBuilder.update_bar bar p v) })) := by
  by_cases hf : s.first_trade_processed = false
  · exact Or.inl ⟨hf, by simp [RangeBarManager.process_trade, hf]⟩
  · have hf' : s.first_trade_processed = true := by
      cases h : s.first_trade_processed
      · exact absurd h hf
      · rfl
    rcases hc : s.current_bar with _ | bar
    · exact Or.inr (Or.inl ⟨hf', rfl, by simp [RangeBarManager.process_trade, hf', hc]⟩)
    · by_cases hs : RangeBarBuilder.should_create_new_bar s.range_size (some bar) p = true
      · exact Or.inr (Or.inr (Or.inl ⟨bar, hf', rfl, hs,
          by simp [RangeBarManager.process_trade, hf', hc, hs]⟩))
      · have hs' : RangeBarBuilder.should_create_new_bar s.range_size (some bar) p = false := by
          cases h : RangeBarBuilder.should_create_new_bar s.range_size (some bar) p
          · rfl
          · exact absurd h hs
        exact Or.inr (Or.inr (Or.inr ⟨bar, hf', rfl, hs',
          by simp [RangeBarManager.process_trade, hf', hc, hs']⟩))

theorem complete_candle_cumulative (s : CVDManagerState) :
    (CVDManager.complete_candle s).2.cumulative_cvd = s.cumulative_cvd := by
  rcases h : s.current_cvd_candle with _ | c <;> simp [CVDManager.complete_candle, h]

theorem complete_candle_last_reset (s : CVDManagerState) :
    (CVDManager.complete_candle s).2.last_reset_timestamp = s.last_reset_timestamp := by
  rcases h : s.current_cvd_candle with _ | c <;> simp [CVDManager.complete_candle, h]

theorem complete_candle_max_history (s : CVDManagerState) :
    (CVDManager.complete_candle s).2.max_history = s.max_history := by
  rcases h : s.current_cvd_candle with _ | c <;> simp [CVDManager.complete_candle, h]

theorem update_cvd_candle_cumulative (s : CVDManagerState) :
    (CVDManager.update_cvd_candle s).cumulative_cvd = s.cumulative_cvd := by
  rcases h : s.current_cvd_candle with _ | c <;> simp [CVDManager.update_cvd_candle, h]

theorem update_cvd_candle_last_reset (s : CVDManagerState) :
    (CVDManager.update_cvd_candle s).last_reset_timestamp = s.last_reset_timestamp := by
  rcases h : s.current_cvd_candle with _ | c <;> simp [CVDManager.update_cvd_candle, h]

theorem update_cvd_candle_max_history (s : CVDManagerState) :
    (CVDManager.update_cvd_candle s).max_history = s.max_history := by
  rcases h : s.current_cvd_candle with _ | c <;> simp [CVDManager.update_cvd_candle, h]

theorem cvd_process_trade_cumulative (s : CVDManagerState) (sd : Side) (v : ℚ)
    (b : Bool) :
    (CVDManager.process_trade s sd v b).2.cumulative_cvd =
      s.cumulative_cvd + CVDCalculator.calculate_volume_delta sd v := by
  simp [CVDManager.process_trade, update_cvd_candle_cumulative]

theorem cvd_process_trade_last_reset (s : CVDManagerState) (sd : Side) (v : ℚ)
    (b : Bool) :
    (CVDManager.process_trade s sd v b).2.last_reset_timestamp =
      s.last_reset_timestamp := by
  simp [CVDManager.process_trade, update_cvd_candle_last_reset]

theorem cvd_process_trade_max_history (s : CVDManagerState) (sd : Side) (v : ℚ)
    (b : Bool) :
    (CVDManager.process_trade s sd v b).2.max_history = s.max_history := by
  simp [CVDManager.process_trade, update_cvd_candle_max_history]

theorem check_and_reset_of_not_lt (s : CVDManagerState) (t : ℚ)
    (h : ¬ utcDay s.last_reset_timestamp < utcDay t) :
    CVDManager.check_and_reset s t = (false, s) := by
  simp [CVDManager.check_and_reset, h]

theorem cc_snd_cumulative (o : Option RangeBar) (s : CVDManagerState) :
    ((if o.isSome then CVDManager.complete_candle s else (none, s)).2).cumulative_cvd =
      s.cumulative_cvd := by
  rcases o <;> simp [complete_candle_cumulative]

theorem cc_snd_last_reset (o : Option RangeBar) (s : CVDManagerState) :
    ((if o.isSome then CVDManager.complete_candle s else (none, s)).2).last_reset_timestamp =
      s.last_reset_timestamp := by
  rcases o <;> simp [complete_candle_last_reset]

theorem cc_snd_max_history (o : Option RangeBar) (s : CVDManagerState) :
    ((if o.isSome then CVDManager.complete_candle s else (none, s)).2).max_history =
      s.max_history := by
  rcases o <;> simp [complete_candle_max_history]

theorem check_and_reset_candle (s : CVDManagerState) (t : ℚ) :
    (CVDManager.check_and_reset s t).2.current_cvd_candle = s.current_cvd_candle := by
  by_cases h : utcDay s.last_reset_timestamp < utcDay t <;>
    simp [CVDManager.check_and_reset, CVDManager.reset, h]

theorem check_and_reset_candles (s : CVDManagerState) (t : ℚ) :
    (CVDManager.check_and_reset s t).2.completed_cvd_candles =
      s.completed_cvd_candles := by
  by_cases h : utcDay s.last_reset_timestamp < utcDay t <;>
    simp [CVDManager.check_and_reset, CVDManager.reset, h]

theorem check_and_reset_max_history (s : CVDManagerState) (t : ℚ) :
    (CVDManager.check_and_reset s t).2.max_history = s.max_history := by
  by_cases h : utcDay s.last_reset_timestamp < utcDay t <;>
    simp [CVDManager.check_and_reset, CVDManager.reset, h]

theorem check_and_reset_cumulative_zero (s : CVDManagerState) (t : ℚ)
    (h0 : s.cumulative_cvd = 0) :
    (CVDManager.check_and_reset s t).2.cumulative_cvd = 0 := by
  by_cases h : utcDay s.last_reset_timestamp < utcDay t <;>
    simp [CVDManager.check_and_reset, CVDManager.reset, h, h0]

theorem cvd_process_trade_delta (s : CVDManagerState) (sd : Side) (v : ℚ)
    (b : Bool) :
    (CVDManager.process_trade s sd v b).1 =
      CVDCalculator.calculate_volume_delta sd v := rfl

theorem cvd_process_candles (s : CVDManagerState) (sd : Side) (v : ℚ) (b : Bool) :
    (CVDManager.process_trade s sd v b).2.completed_cvd_candles =
      s.completed_cvd_candles := by
  rcases h : s.current_cvd_candle with _ | c <;>
    simp [CVDManager.process_trade, CVDManager.update_cvd_candle, h]

theorem cvd_process_candle_some_open (s : CVDManagerState) (sd : Side) (v : ℚ)
    (b : Bool) (c : CVDCandle) (h : s.current_cvd_candle = some c) :
    ∃ c', (CVDManager.process_trade s sd v b).2.current_cvd_candle = some c'
      ∧ c'.open_ = c.open_ :=
  ⟨{ c with
      high := max c.high (s.cumulative_cvd + CVDCalculator.calculate_volume_delta sd v)
      low := min c.low (s.cumulative_cvd + CVDCalculator.calculate_volume_delta sd v)
      close := s.cumulative_cvd + CVDCalculator.calculate_volume_delta sd v },
   by simp [CVDManager.process_trade, CVDManager.update_cvd_candle, h], rfl⟩

theorem cvd_process_candle_none_empty (s : CVDManagerState) (sd : Side) (v : ℚ)
    (hc : s.current_cvd_candle = none) (hd : s.completed_cvd_candles = [])
    (h0 : s.cumulative_cvd = 0) :
    ∃ c', (CVDManager.process_trade s sd v true).2.current_cvd_candle = some c'
      ∧ c'.open_ = 0 :=
  ⟨{ open_ := 0
     high := CVDCalculator.calculate_volume_delta sd v
     low := CVDCalculator.calculate_volume_delta sd v
     close := CVDCalculator.calculate_volume_delta sd v },
   by simp [CVDManager.process_trade, CVDManager.update_cvd_candle, hc, hd, h0], rfl⟩

theorem cvd_process_candle_none_last (s : CVDManagerState) (sd : Side) (v : ℚ)
    (b : Bool) (c : CVDCandle) (hc : s.current_cvd_candle = none)
    (hd : s.completed_cvd_candles.getLast? = some c) :
    ∃ c', (CVDManager.process_trade s sd v b).2.current_cvd_candle = some c'
      ∧ c'.open_ = c.close :=
  ⟨{ open_ := c.close
     high := s.cumulative_cvd + CVDCalculator.calculate_volume_delta sd v
     low := s.cumulative_cvd + CVDCalculator.calculate_volume_delta sd v
     close := s.cumulative_cvd + CVDCalculator.calculate_volume_delta sd v },
   by simp [CVDManager.process_trade, CVDManager.update_cvd_candle, hc, hd], rfl⟩

theorem complete_candle_some (s : CVDManagerState) (c : CVDCandle)
    (h : s.current_cvd_candle = some c) :
    CVDManager.complete_candle s = (some c,
      { s with
        completed_cvd_candles := pushMaxlen s.max_history s.completed_cvd_candles c
        current_cvd_candle := none }) := by
  simp [CVDManager.complete_candle, h]

theorem eq_nil_of_getLast?_eq_none {α : Type} {l : List α}
    (h : l.getLast? = none) : l = [] := by
  cases l with
  | nil => rfl
  | cons a as => simp [List.getLast?_cons] at h

theorem update_current_profile_first (s : RangeBarManagerState) (p v d : ℚ) :
    (MarketDataManager.update_current_profile s p v d).first_trade_processed =
      s.first_trade_processed := by
  rcases hc : s.current_bar with _ | bar
  · simp [MarketDataManager.update_current_profile, hc]
  · rcases hvp : bar.volume_profile with _ | vp <;>
      simp [MarketDataManager.update_current_profile, hc, hvp]

theorem process_validated_cvd_eq (s : MarketDataManagerState) (e : TradeEvent) :
    (MarketDataManager.process_validated s e).1.cvd =
      (CVDManager.process_trade
        (if ((RangeBarManager.process_trade s.bars e.price e.volume e.timestamp).2.1).isSome
          then CVDManager.complete_candle (CVDManager.check_and_reset s.cvd e.timestamp).2
          else (none, (CVDManager.check_and_reset s.cvd e.timestamp).2)).2
        e.side e.volume
        (RangeBarManager.process_trade s.bars e.price e.volume e.timestamp).1).2 := rfl

theorem process_validated_completed_cvd_eq (s : MarketDataManagerState)
    (e : TradeEvent) :
    (MarketDataManager.process_validated s e).2.completed_cvd =
      (if ((RangeBarManager.process_trade s.bars e.price e.volume e.timestamp).2.1).isSome
        then CVDManager.complete_candle (CVDManager.check_and_reset s.cvd e.timestamp).2
        else (none, (CVDManager.check_and_reset s.cvd e.timestamp).2)).1 := rfl

theorem process_validated_bars_eq (s : MarketDataManagerState) (e : TradeEvent) :
    (MarketDataManager.process_validated s e).1.bars =
      MarketDataManager.update_current_profile
        (RangeBarManager.process_trade s.bars e.price e.volume e.timestamp).2.2
        e.price e.volume
        (CVDManager.process_trade
          (if ((RangeBarManager.process_trade s.bars e.price e.volume e.timestamp).2.1).isSome
            then CVDManager.complete_candle (CVDManager.check_and_reset s.cvd e.timestamp).2
            else (none, (CVDManager.check_and_reset s.cvd e.timestamp).2)).2
          e.side e.volume
          (RangeBarManager.process_trade s.bars e.price e.volume e.timestamp).1).1 := rfl

theorem step_cvd_sum (s : MarketDataManagerState) (e : TradeEvent)
    (hd : ¬ utcDay s.cvd.last_reset_timestamp < utcDay e.timestamp) :
    (MarketDataManager.process_validated s e).1.cvd.cumulative_cvd =
      s.cvd.cumulative_cvd + CVDCalculator.calculate_volume_delta e.side e.volume
    ∧ (MarketDataManager.process_validated s e).1.cvd.last_reset_timestamp =
      s.cvd.last_reset_timestamp := by
  have hcr : CVDManager.check_and_reset s.cvd e.timestamp = (false, s.cvd) :=
    check_and_reset_of_not_lt _ _ hd
  constructor <;>
    simp [MarketDataManager.process_validated, hcr,
      cvd_process_trade_cumulative, cvd_process_trade_last_reset,
      cc_snd_cumulative, cc_snd_last_reset]

theorem step_candle_inv (s : MarketDataManagerState) (lp : Option CVDCandle)
    (e : TradeEvent) (hm : 1 ≤ s.cvd.max_history) (hinv : CandleInv s lp) :
    (∀ c, (MarketDataManager.process_validated s e).2.completed_cvd = some c →
        c.open_ = lastClose lp)
    ∧ CandleInv (MarketDataManager.process_validated s e).1
        (Option.elim (MarketDataManager.process_validated s e).2.completed_cvd lp some)
    ∧ (MarketDataManager.process_validated s e).1.cvd.max_history =
        s.cvd.max_history := by
  obtain ⟨hlast, hopen, hnone⟩ := hinv
  have hmax : (MarketDataManager.process_validated s e).1.cvd.max_history =
      s.cvd.max_history := by
    rw [process_validated_cvd_eq, cvd_process_trade_max_history, cc_snd_max_history,
      check_and_reset_max_history]
  rcases bars_process_cases s.bars e.price e.volume e.timestamp with
    ⟨hf, heq⟩ | ⟨hf, hc, heq⟩ | ⟨bar, hf, hc, hs, heq⟩ | ⟨bar, hf, hc, hs, heq⟩
  -- first trade ever: new bar, no completion
  · have hb : (RangeBarManager.process_trade s.bars e.price e.volume e.timestamp).2.1 = none := by
      rw [heq]
    have hnb : (RangeBarManager.process_trade s.bars e.price e.volume e.timestamp).1 = true := by
      rw [heq]
    have hccvd : (MarketDataManager.process_validated s e).2.completed_cvd = none := by
      rw [process_validated_completed_cvd_eq, hb]
      simp
    refine ⟨?_, ?_, hmax⟩
    · intro c hcc
      rw [hccvd] at hcc
      cases hcc
    rw [hccvd]
    simp only [Option.elim]
    rcases hcc : s.cvd.current_cvd_candle with _ | c
    · obtain ⟨hlp, h0, _⟩ := hnone hcc
      have hdeq : s.cvd.completed_cvd_candles = [] :=
        eq_nil_of_getLast?_eq_none (by rw [hlast, hlp])
      obtain ⟨c', hc', ho'⟩ := cvd_process_candle_none_empty
        (CVDManager.check_and_reset s.cvd e.timestamp).2 e.side e.volume
        (by rw [check_and_reset_candle]; exact hcc)
        (by rw [check_and_reset_candles]; exact hdeq)
        (check_and_reset_cumulative_zero _ _ h0)
      refine ⟨?_, ?_, ?_⟩
      · rw [process_validated_cvd_eq, hb]
        simp only [Option.isSome_none, Bool.false_eq_true, if_false]
        rw [cvd_process_candles, check_and_reset_candles, hlast]
      · intro c0 hcur
        rw [process_validated_cvd_eq, hb, hnb] at hcur
        simp only [Option.isSome_none, Bool.false_eq_true, if_false] at hcur
        rw [hc'] at hcur
        obtain rfl : c' = c0 := by simpa using hcur
        rw [ho', hlp]
        rfl
      · intro hcur
        rw [process_validated_cvd_eq, hb, hnb] at hcur
        simp only [Option.isSome_none, Bool.false_eq_true, if_false] at hcur
        rw [hc'] at hcur
        cases hcur
    · obtain ⟨c', hc', ho'⟩ := cvd_process_candle_some_open
        (CVDManager.check_and_reset s.cvd e.timestamp).2 e.side e.volume
        (RangeBarManager.process_trade s.bars e.price e.volume e.timestamp).1 c
        (by rw [check_and_reset_candle]; exact hcc)
      refine ⟨?_, ?_, ?_⟩
      · rw [process_validated_cvd_eq, hb]
        simp only [Option.isSome_none, Bool.false_eq_true, if_false]
        rw [cvd_process_candles, check_and_reset_candles, hlast]
      · intro c0 hcur
        rw [process_validated_cvd_eq, hb] at hcur
        simp only [Option.isSome_none, Bool.false_eq_true, if_false] at hcur
        rw [hc'] at hcur
        obtain rfl : c' = c0 := by simpa using hcur
        rw [ho']
        exact hopen c hcc
      · intro hcur
        rw [process_validated_cvd_eq, hb] at hcur
        simp only [Option.isSome_none, Bool.false_eq_true, if_false] at hcur
        rw [hc'] at hcur
        cases hcur
  -- defensive branch: open state without a bar, no completion
  · have hb : (RangeBarManager.process_trade s.bars e.price e.volume e.timestamp).2.1 = none := by
      rw [heq]
    have hccvd : (MarketDataManager.process_validated s e).2.completed_cvd = none := by
      rw [process_validated_completed_cvd_eq, hb]
      simp
    refine ⟨?_, ?_, hmax⟩
    · intro c hcc
      rw [hccvd] at hcc
      cases hcc
    rw [hccvd]
    simp only [Option.elim]
    rcases hcc : s.cvd.current_cvd_candle with _ | c
    · obtain ⟨_, _, hfp⟩ := hnone hcc
      rw [hf] at hfp
      cases hfp
    · obtain ⟨c', hc', ho'⟩ := cvd_process_candle_some_open
        (CVDManager.check_and_reset s.cvd e.timestamp).2 e.side e.volume
        (RangeBarManager.process_trade s.bars e.price e.volume e.timestamp).1 c
        (by rw [check_and_reset_candle]; exact hcc)
      refine ⟨?_, ?_, ?_⟩
      · rw [process_validated_cvd_eq, hb]
        simp only [Option.isSome_none, Bool.false_eq_true, if_false]
        rw [cvd_process_candles, check_and_reset_candles, hlast]
      · intro c0 hcur
        rw [process_validated_cvd_eq, hb] at hcur
        simp only [Option.isSome_none, Bool.false_eq_true, if_false] at hcur
        rw [hc'] at hcur
        obtain rfl : c' = c0 := by simpa using hcur
        rw [ho']
        exact hopen c hcc
      · intro hcur
        rw [process_validated_cvd_eq, hb] at hcur
        simp only [Option.isSome_none, Bool.false_eq_true, if_false] at hcur
        rw [hc'] at hcur
        cases hcur
  -- breakout: the current bar completes, its candle is committed
  · have hcb : RangeBarManager.complete_current_bar s.bars e.timestamp =
        (some { bar with timestamp_end := some e.timestamp },
         { s.bars with
           current_bar := some { bar with timestamp_end := some e.timestamp }
           completed_bars := pushMaxlen s.bars.max_history s.bars.completed_bars
             { bar with timestamp_end := some e.timestamp } }) := by
      simp [RangeBarManager.complete_current_bar, hc]
    have hb : (RangeBarManager.process_trade s.bars e.price e.volume e.timestamp).2.1 =
        some { bar with timestamp_end := some e.timestamp } := by
      rw [heq, hcb]
    rcases hcc : s.cvd.current_cvd_candle with _ | c
    · obtain ⟨_, _, hfp⟩ := hnone hcc
      rw [hf] at hfp
      cases hfp
    have hrc2c : (CVDManager.check_and_reset s.cvd e.timestamp).2.current_cvd_candle =
        some c := by
      rw [check_and_reset_candle]
      exact hcc
    have hcmp := complete_candle_some (CVDManager.check_and_reset s.cvd e.timestamp).2 c hrc2c
    have hccvd : (MarketDataManager.process_validated s e).2.completed_cvd = some c := by
      rw [process_validated_completed_cvd_eq, hb]
      simp only [Option.isSome_some, if_true]
      rw [hcmp]
    have hXlast : (CVDManager.complete_candle
        (CVDManager.check_and_reset s.cvd e.timestamp).2).2.completed_cvd_candles.getLast? =
          some c := by
      rw [hcmp]
      exact getLast?_pushMaxlen _ (by rw [check_and_reset_max_history]; exact hm) _ _
    have hXnone : (CVDManager.complete_candle
        (CVDManager.check_and_reset s.cvd e.timestamp).2).2.current_cvd_candle = none := by
      rw [hcmp]
    obtain ⟨c', hc', ho'⟩ := cvd_process_candle_none_last
      (CVDManager.complete_candle (CVDManager.check_and_reset s.cvd e.timestamp).2).2
      e.side e.volume
      (RangeBarManager.process_trade s.bars e.price e.volume e.timestamp).1 c
      hXnone hXlast
    refine ⟨?_, ?_, hmax⟩
    · intro c0 h0
      rw [hccvd] at h0
      obtain rfl : c = c0 := by simpa using h0
      exact hopen c hcc
    rw [hccvd]
    simp only [Option.elim]
    refine ⟨?_, ?_, ?_⟩
    · rw [process_validated_cvd_eq, hb]
      simp only [Option.isSome_some, if_true]
      rw [cvd_process_candles]
      exact hXlast
    · intro c0 hcur
      rw [process_validated_cvd_eq, hb] at hcur
      simp only [Option.isSome_some, if_true] at hcur
      rw [hc'] at hcur
      obtain rfl : c' = c0 := by simpa using hcur
      rw [ho']
      rfl
    · intro hcur
      rw [process_validated_cvd_eq, hb] at hcur
      simp only [Option.isSome_some, if_true] at hcur
      rw [hc'] at hcur
      cases hcur
  -- absorbed trade: no completion, the active candle is updated in place
  · have hb : (RangeBarManager.process_trade s.bars e.price e.volume e.timestamp).2.1 = none := by
      rw [heq]
    have hccvd : (MarketDataManager.process_validated s e).2.completed_cvd = none := by
      rw [process_validated_completed_cvd_eq, hb]
      simp
    refine ⟨?_, ?_, hmax⟩
    · intro c hcc
      rw [hccvd] at hcc
      cases hcc
    rw [hccvd]
    simp only [Option.elim]
    rcases hcc : s.cvd.current_cvd_candle with _ | c
    · obtain ⟨_, _, hfp⟩ := hnone hcc
      rw [hf] at hfp
      cases hfp
    · obtain ⟨c', hc', ho'⟩ := cvd_process_candle_some_open
        (CVDManager.check_and_reset s.cvd e.timestamp).2 e.side e.volume
        (RangeBarManager.process_trade s.bars e.price e.volume e.timestamp).1 c
        (by rw [check_and_reset_candle]; exact hcc)
      refine ⟨?_, ?_, ?_⟩
      · rw [process_validated_cvd_eq, hb]
        simp only [Option.isSome_none, Bool.false_eq_true, if_false]
        rw [cvd_process_candles, check_and_reset_candles, hlast]
      · intro c0 hcur
        rw [process_validated_cvd_eq, hb] at hcur
        simp only [Option.isSome_none, Bool.false_eq_true, if_false] at hcur
        rw [hc'] at hcur
        obtain rfl : c' = c0 := by simpa using hcur
        rw [ho']
        exact hopen c hcc
      · intro hcur
        rw [process_validated_cvd_eq, hb] at hcur
        simp only [Option.isSome_none, Bool.false_eq_true, if_false] at hcur
        rw [hc'] at hcur
        cases hcur

theorem run_cvd_sum (ts : List TradeEvent) :
    ∀ s : MarketDataManagerState,
      (∀ e ∈ ts, utcDay e.timestamp = utcDay s.cvd.last_reset_timestamp) →
      (MarketDataManager.run s ts).1.cvd.cumulative_cvd =
        s.cvd.cumulative_cvd + signedVolumeSum ts := by
  induction ts with
  | nil =>
    intro s _
    simp [MarketDataManager.run, signedVolumeSum]
  | cons e es ih =>
    intro s hd
    have hde : utcDay e.timestamp = utcDay s.cvd.last_reset_timestamp :=
      hd e (by simp)
    have hnl : ¬ utcDay s.cvd.last_reset_timestamp < utcDay e.timestamp := by omega
    have hstep := step_cvd_sum s e hnl
    have hrest := ih (MarketDataManager.process_validated s e).1 (by
      intro e' he'
      rw [hstep.2]
      exact hd e' (by simp [he']))
    calc (MarketDataManager.run s (e :: es)).1.cvd.cumulative_cvd
        = (MarketDataManager.run (MarketDataManager.process_validated s e).1 es).1.cvd.cumulative_cvd := by
          simp [MarketDataManager.run]
      _ = (MarketDataManager.process_validated s e).1.cvd.cumulative_cvd + signedVolumeSum es := hrest
      _ = s.cvd.cumulative_cvd + signedVolumeSum (e :: es) := by
          rw [hstep.1]
          simp [signedVolumeSum]
          ring

theorem barWF_create (p v t : ℚ) : BarWF (RangeBarBuilder.create_bar p v t) := by
  unfold BarWF RangeBarBuilder.create_bar
  exact ⟨le_refl _, le_refl _, le_refl _, le_refl _⟩

theorem barWF_update (b : RangeBar) (p v : ℚ) (h : BarWF b) :
    BarWF (RangeBarBuilder.update_bar b p v) := by
  obtain ⟨h1, h2, h3, h4⟩ := h
  unfold BarWF RangeBarBuilder.update_bar
  exact ⟨le_trans (min_le_left _ _) h1, le_trans h2 (le_max_left _ _),
    min_le_right _ _, le_max_right _ _⟩

theorem barWF_timestamp_end (b : RangeBar) (t : ℚ) (h : BarWF b) :
    BarWF { b with timestamp_end := some t } := h

theorem update_range_bounds_current (s : RangeBarManagerState) :
    (RangeBarManager.update_range_bounds s).current_bar = s.current_bar := by
  rcases hc : s.current_bar with _ | bar <;>
    simp [RangeBarManager.update_range_bounds, hc]
  split <;> simp

theorem update_range_bounds_completed (s : RangeBarManagerState) :
    (RangeBarManager.update_range_bounds s).completed_bars = s.completed_bars := by
  rcases hc : s.current_bar with _ | bar <;>
    simp [RangeBarManager.update_range_bounds, hc]
  split <;> simp

theorem update_range_bounds_range_size (s : RangeBarManagerState) :
    (RangeBarManager.update_range_bounds s).range_size = s.range_size := by
  rcases hc : s.current_bar with _ | bar <;>
    simp [RangeBarManager.update_range_bounds, hc]
  split <;> simp

theorem update_current_profile_current (s : RangeBarManagerState) (p v d : ℚ) :
    ∀ b, (MarketDataManager.update_current_profile s p v d).current_bar = some b →
      ∃ b0, s.current_bar = some b0 ∧ b.open_ = b0.open_ ∧ b.high = b0.high
        ∧ b.low = b0.low ∧ b.close = b0.close := by
  intro b hb
  rcases hc : s.current_bar with _ | bar
  · simp only [MarketDataManager.update_current_profile, hc] at hb
    cases hb
  · rcases hvp : bar.volume_profile with _ | vp
    · simp only [MarketDataManager.update_current_profile, hc, hvp] at hb
      obtain rfl : bar = b := by simpa using hb
      exact ⟨bar, rfl, rfl, rfl, rfl, rfl⟩
    · simp only [MarketDataManager.update_current_profile, hc, hvp] at hb
      obtain rfl : { bar with volume_profile := some (vp.update p v d) } = b := by
        simpa using hb
      exact ⟨bar, rfl, rfl, rfl, rfl, rfl⟩

theorem update_current_profile_completed (s : RangeBarManagerState) (p v d : ℚ) :
    (MarketDataManager.update_current_profile s p v d).completed_bars =
      s.completed_bars := by
  rcases hc : s.current_bar with _ | bar
  · simp [MarketDataManager.update_current_profile, hc]
  · rcases hvp : bar.volume_profile with _ | vp <;>
      simp [MarketDataManager.update_current_profile, hc, hvp]

theorem update_current_profile_range_size (s : RangeBarManagerState) (p v d : ℚ) :
    (MarketDataManager.update_current_profile s p v d).range_size =
      s.range_size := by
  rcases hc : s.current_bar with _ | bar
  · simp [MarketDataManager.update_current_profile, hc]
  · rcases hvp : bar.volume_profile with _ | vp <;>
      simp [MarketDataManager.update_current_profile, hc, hvp]

theorem bars_process_range_size (s : RangeBarManagerState) (p v t : ℚ) :
    (RangeBarManager.process_trade s p v t).2.2.range_size = s.range_size := by
  rcases bars_process_cases s p v t with
    ⟨hf, heq⟩ | ⟨hf, hc, heq⟩ | ⟨bar, hf, hc, hs, heq⟩ | ⟨bar, hf, hc, hs, heq⟩
  · rw [heq]
    simp [RangeBarManager.initialize_first_bar, RangeBarManager.set_range_bounds]
  · rw [heq]
    simp [RangeBarManager.create_new_bar, RangeBarManager.set_range_bounds]
  · rw [heq]
    simp [RangeBarManager.create_new_bar, RangeBarManager.set_range_bounds,
      RangeBarManager.complete_current_bar, hc]
  · rw [heq]
    simp [update_range_bounds_range_size]

theorem process_validated_completed_bar_eq (s : MarketDataManagerState)
    (e : TradeEvent) :
    (MarketDataManager.process_validated s e).2.completed_bar =
      (RangeBarManager.process_trade s.bars e.price e.volume e.timestamp).2.1 := rfl

theorem bars_process_wf (s : RangeBarManagerState) (p v t : ℚ)
    (h1 : ∀ b, s.current_bar = some b → BarWF b)
    (h2 : ∀ b ∈ s.completed_bars, BarWF b) :
    (∀ b, (RangeBarManager.process_trade s p v t).2.2.current_bar = some b → BarWF b)
    ∧ (∀ b ∈ (RangeBarManager.process_trade s p v t).2.2.completed_bars, BarWF b)
    ∧ (∀ b, (RangeBarManager.process_trade s p v t).2.1 = some b → BarWF b) := by
  rcases bars_process_cases s p v t with
    ⟨hf, heq⟩ | ⟨hf, hc, heq⟩ | ⟨bar, hf, hc, hs, heq⟩ | ⟨bar, hf, hc, hs, heq⟩
  · rw [heq]
    refine ⟨?_, ?_, ?_⟩
    · intro b hb
      obtain rfl : ({ RangeBarBuilder.create_bar p v t with
          volume_profile := some { tick_size := s.volume_tick_size } } : RangeBar) = b := by
        simpa [RangeBarManager.initialize_first_bar, RangeBarManager.set_range_bounds]
          using hb
      exact barWF_create p v t
    · intro b hb
      exact h2 b (by
        simpa [RangeBarManager.initialize_first_bar, RangeBarManager.set_range_bounds]
          using hb)
    · intro b hb
      cases hb
  · rw [heq]
    refine ⟨?_, ?_, ?_⟩
    · intro b hb
      obtain rfl : ({ RangeBarBuilder.create_bar p v t with
          volume_profile := some { tick_size := s.volume_tick_size } } : RangeBar) = b := by
        simpa [RangeBarManager.create_new_bar, RangeBarManager.set_range_bounds]
          using hb
      exact barWF_create p v t
    · intro b hb
      exact h2 b (by
        simpa [RangeBarManager.create_new_bar, RangeBarManager.set_range_bounds]
          using hb)
    · intro b hb
      cases hb
  · have hcb : RangeBarManager.complete_current_bar s t =
        (some { bar with timestamp_end := some t },
         { s with
           current_bar := some { bar with timestamp_end := some t }
           completed_bars := pushMaxlen s.max_history s.completed_bars
             { bar with timestamp_end := some t } }) := by
      simp [RangeBarManager.complete_current_bar, hc]
    rw [heq, hcb]
    have hdone : BarWF { bar with timestamp_end := some t } :=
      barWF_timestamp_end bar t (h1 bar hc)
    refine ⟨?_, ?_, ?_⟩
    · intro b hb
      obtain rfl : ({ RangeBarBuilder.create_bar p v t with
          volume_profile := some { tick_size := s.volume_tick_size } } : RangeBar) = b := by
        simpa [RangeBarManager.create_new_bar, RangeBarManager.set_range_bounds]
          using hb
      exact barWF_create p v t
    · intro b hb
      have hb' : b ∈ pushMaxlen s.max_history s.completed_bars
          { bar with timestamp_end := some t } := by
        simpa [RangeBarManager.create_new_bar, RangeBarManager.set_range_bounds]
          using hb
      rcases mem_pushMaxlen hb' with h | rfl
      · exact h2 b h
      · exact hdone
    · intro b hb
      obtain rfl : ({ bar with timestamp_end := some t } : RangeBar) = b := by
        simpa using hb
      exact hdone
  · rw [heq]
    refine ⟨?_, ?_, ?_⟩
    · intro b hb
      rw [update_range_bounds_current] at hb
      obtain rfl : RangeBarBuilder.update_bar bar p v = b := by simpa using hb
      exact barWF_update bar p v (h1 bar hc)
    · intro b hb
      rw [update_range_bounds_completed] at hb
      exact h2 b (by simpa using hb)
    · intro b hb
      cases hb

theorem update_cvd_candle_wf (s : CVDManagerState)
    (h1 : ∀ c, s.current_cvd_candle = some c → CandleWF c) :
    ∀ c, (CVDManager.update_cvd_candle s).current_cvd_candle = some c →
      CandleWF c := by
  intro c hc
  rcases hcc : s.current_cvd_candle with _ | c0
  · simp only [CVDManager.update_cvd_candle, hcc] at hc
    obtain rfl := Option.some.inj hc
    exact le_refl _
  · simp only [CVDManager.update_cvd_candle, hcc] at hc
    obtain rfl := Option.some.inj hc
    exact le_trans (min_le_left _ _) (le_trans (h1 c0 hcc) (le_max_left _ _))

theorem cvd_process_candle_wf (s : CVDManagerState) (sd : Side) (v : ℚ) (b : Bool)
    (h1 : ∀ c, s.current_cvd_candle = some c → CandleWF c) :
    ∀ c, (CVDManager.process_trade s sd v b).2.current_cvd_candle = some c →
      CandleWF c := by
  intro c hc
  have hrw : (CVDManager.process_trade s sd v b).2 =
      CVDManager.update_cvd_candle
        { s with
          cumulative_cvd := s.cumulative_cvd + CVDCalculator.calculate_volume_delta sd v
          current_bar_cvd := if b then CVDCalculator.calculate_volume_delta sd v
            else s.current_bar_cvd + CVDCalculator.calculate_volume_delta sd v } := rfl
  rw [hrw] at hc
  exact update_cvd_candle_wf
    { s with
      cumulative_cvd := s.cumulative_cvd + CVDCalculator.calculate_volume_delta sd v
      current_bar_cvd := if b then CVDCalculator.calculate_volume_delta sd v
        else s.current_bar_cvd + CVDCalculator.calculate_volume_delta sd v }
    (fun c0 h => h1 c0 h) c hc

theorem complete_candle_wf (s : CVDManagerState)
    (h1 : ∀ c, s.current_cvd_candle = some c → CandleWF c)
    (h2 : ∀ c ∈ s.completed_cvd_candles, CandleWF c) :
    (∀ c ∈ (CVDManager.complete_candle s).2.completed_cvd_candles, CandleWF c)
    ∧ (∀ c, (CVDManager.complete_candle s).1 = some c → CandleWF c)
    ∧ (∀ c, (CVDManager.complete_candle s).2.current_cvd_candle = some c →
        CandleWF c) := by
  rcases hcc : s.current_cvd_candle with _ | c0
  · refine ⟨?_, ?_, ?_⟩
    · intro c h
      exact h2 c (by simpa [CVDManager.complete_candle, hcc] using h)
    · intro c h
      simp [CVDManager.complete_candle, hcc] at h
    · intro c h
      simp only [CVDManager.complete_candle, hcc] at h
      cases h
  · rw [complete_candle_some s c0 hcc]
    refine ⟨?_, ?_, ?_⟩
    · intro c h
      rcases mem_pushMaxlen (by simpa using h) with h' | rfl
      · exact h2 c h'
      · exact h1 c hcc
    · intro c h
      obtain rfl : c0 = c := by simpa using h
      exact h1 c0 hcc
    · intro c h
      cases h

theorem step_wf (s : MarketDataManagerState) (e : TradeEvent) (hw : WFInv s) :
    WFInv (MarketDataManager.process_validated s e).1
    ∧ (∀ b, (MarketDataManager.process_validated s e).2.completed_bar = some b →
        BarWF b)
    ∧ (∀ c, (MarketDataManager.process_validated s e).2.completed_cvd = some c →
        CandleWF c) := by
  obtain ⟨hwc, hwcb, hwcc, hwccd⟩ := hw
  obtain ⟨hb1, hb2, hb3⟩ := bars_process_wf s.bars e.price e.volume e.timestamp hwc hwcb
  have hrc2c : ∀ c, (CVDManager.check_and_reset s.cvd e.timestamp).2.current_cvd_candle
      = some c → CandleWF c := by
    intro c h
    rw [check_and_reset_candle] at h
    exact hwcc c h
  have hrc2d : ∀ c ∈ (CVDManager.check_and_reset s.cvd e.timestamp).2.completed_cvd_candles,
      CandleWF c := by
    intro c h
    rw [check_and_reset_candles] at h
    exact hwccd c h
  have hXc : ∀ c, ((if ((RangeBarManager.process_trade s.bars e.price e.volume
        e.timestamp).2.1).isSome
      then CVDManager.complete_candle (CVDManager.check_and_reset s.cvd e.timestamp).2
      else (none, (CVDManager.check_and_reset s.cvd e.timestamp).2)).2).current_cvd_candle
        = some c → CandleWF c := by
    rcases hcb : (RangeBarManager.process_trade s.bars e.price e.volume e.timestamp).2.1 with _ | cb
    · simpa using hrc2c
    · simpa using (complete_candle_wf _ hrc2c hrc2d).2.2
  have hXd : ∀ c ∈ ((if ((RangeBarManager.process_trade s.bars e.price e.volume
        e.timestamp).2.1).isSome
      then CVDManager.complete_candle (CVDManager.check_and_reset s.cvd e.timestamp).2
      else (none, (CVDManager.check_and_reset s.cvd e.timestamp).2)).2).completed_cvd_candles,
      CandleWF c := by
    rcases hcb : (RangeBarManager.process_trade s.bars e.price e.volume e.timestamp).2.1 with _ | cb
    · simpa using hrc2d
    · simpa using (complete_candle_wf _ hrc2c hrc2d).1
  refine ⟨⟨?_, ?_, ?_, ?_⟩, ?_, ?_⟩
  · intro b hb
    rw [process_validated_bars_eq] at hb
    obtain ⟨b0, hb0, ho, hh, hl, hcl⟩ := update_current_profile_current _ _ _ _ b hb
    have hwf0 := hb1 b0 hb0
    unfold BarWF at hwf0 ⊢
    rw [ho, hh, hl, hcl]
    exact hwf0
  · intro b hb
    rw [process_validated_bars_eq, update_current_profile_completed] at hb
    exact hb2 b hb
  · intro c hc
    rw [process_validated_cvd_eq] at hc
    exact cvd_process_candle_wf _ e.side e.volume _ hXc c hc
  · intro c hc
    rw [process_validated_cvd_eq, cvd_process_candles] at hc
    exact hXd c hc
  · intro b hb
    rw [process_validated_completed_bar_eq] at hb
    exact hb3 b hb
  · intro c hc
    rw [process_validated_completed_cvd_eq] at hc
    rcases hcb : (RangeBarManager.process_trade s.bars e.price e.volume e.timestamp).2.1 with _ | cb
    · rw [hcb] at hc
      simp at hc
    · rw [hcb] at hc
      simp only [Option.isSome_some, if_true] at hc
      exact (complete_candle_wf _ hrc2c hrc2d).2.1 c hc

theorem run_wf (ts : List TradeEvent) :
    ∀ s : MarketDataManagerState, WFInv s →
      WFInv (MarketDataManager.run s ts).1
      ∧ (∀ b ∈ (MarketDataManager.run s ts).2.2, BarWF b)
      ∧ (∀ c ∈ (MarketDataManager.run s ts).2.1, CandleWF c) := by
  induction ts with
  | nil =>
    intro s hw
    refine ⟨hw, ?_, ?_⟩ <;> intro x hx <;> simp [MarketDataManager.run] at hx
  | cons e es ih =>
    intro s hw
    obtain ⟨hw', hbar, hcnd⟩ := step_wf s e hw
    obtain ⟨hw2, hbars2, hcnds2⟩ := ih (MarketDataManager.process_validated s e).1 hw'
    refine ⟨?_, ?_, ?_⟩
    · simpa [MarketDataManager.run] using hw2
    · intro b hb
      simp only [MarketDataManager.run, List.mem_append, Option.mem_toList,
        Option.mem_def] at hb
      rcases hb with hb | hb
      · exact hbar b hb
      · exact hbars2 b hb
    · intro c hc
      simp only [MarketDataManager.run, List.mem_append, Option.mem_toList,
        Option.mem_def] at hc
      rcases hc with hc | hc
      · exact hcnd c hc
      · exact hcnds2 c hc

theorem not_should_lt (range_size : ℚ) (bar : RangeBar) (p : ℚ)
    (hs : RangeBarBuilder.should_create_new_bar range_size (some bar) p = false) :
    max bar.high p - min bar.low p < range_size := by
  have hns : ¬ (range_size ≤ max bar.high p - min bar.low p) := by
    simpa [RangeBarBuilder.should_create_new_bar] using hs
  exact not_le.mp hns

theorem bars_process_range (s : RangeBarManagerState) (p v t : ℚ)
    (hrs : 0 < s.range_size)
    (h1 : ∀ b, s.current_bar = some b → b.high - b.low < s.range_size)
    (h2 : ∀ b ∈ s.completed_bars, b.high - b.low < s.range_size) :
    (∀ b, (RangeBarManager.process_trade s p v t).2.2.current_bar = some b →
      b.high - b.low < s.range_size)
    ∧ (∀ b ∈ (RangeBarManager.process_trade s p v t).2.2.completed_bars,
      b.high - b.low < s.range_size)
    ∧ (∀ b, (RangeBarManager.process_trade s p v t).2.1 = some b →
      b.high - b.low < s.range_size) := by
  rcases bars_process_cases s p v t with
    ⟨hf, heq⟩ | ⟨hf, hc, heq⟩ | ⟨bar, hf, hc, hs, heq⟩ | ⟨bar, hf, hc, hs, heq⟩
  · rw [heq]
    refine ⟨?_, ?_, ?_⟩
    · intro b hb
      obtain rfl : ({ RangeBarBuilder.create_bar p v t with
          volume_profile := some { tick_size := s.volume_tick_size } } : RangeBar) = b := by
        simpa [RangeBarManager.initialize_first_bar, RangeBarManager.set_range_bounds]
          using hb
      simpa [RangeBarBuilder.create_bar] using hrs
    · intro b hb
      exact h2 b (by
        simpa [RangeBarManager.initialize_first_bar, RangeBarManager.set_range_bounds]
          using hb)
    · intro b hb
      cases hb
  · rw [heq]
    refine ⟨?_, ?_, ?_⟩
    · intro b hb
      obtain rfl : ({ RangeBarBuilder.create_bar p v t with
          volume_profile := some { tick_size := s.volume_tick_size } } : RangeBar) = b := by
        simpa [RangeBarManager.create_new_bar, RangeBarManager.set_range_bounds]
          using hb
      simpa [RangeBarBuilder.create_bar] using hrs
    · intro b hb
      exact h2 b (by
        simpa [RangeBarManager.create_new_bar, RangeBarManager.set_range_bounds]
          using hb)
    · intro b hb
      cases hb
  · have hcb : RangeBarManager.complete_current_bar s t =
        (some { bar with timestamp_end := some t },
         { s with
           current_bar := some { bar with timestamp_end := some t }
           completed_bars := pushMaxlen s.max_history s.completed_bars
             { bar with timestamp_end := some t } }) := by
      simp [RangeBarManager.complete_current_bar, hc]
    rw [heq, hcb]
    have hdone : ({ bar with timestamp_end := some t } : RangeBar).high -
        ({ bar with timestamp_end := some t } : RangeBar).low < s.range_size :=
      h1 bar hc
    refine ⟨?_, ?_, ?_⟩
    · intro b hb
      obtain rfl : ({ RangeBarBuilder.create_bar p v t with
          volume_profile := some { tick_size := s.volume_tick_size } } : RangeBar) = b := by
        simpa [RangeBarManager.create_new_bar, RangeBarManager.set_range_bounds]
          using hb
      simpa [RangeBarBuilder.create_bar] using hrs
    · intro b hb
      have hb' : b ∈ pushMaxlen s.max_history s.completed_bars
          { bar with timestamp_end := some t } := by
        simpa [RangeBarManager.create_new_bar, RangeBarManager.set_range_bounds]
          using hb
      rcases mem_pushMaxlen hb' with h | rfl
      · exact h2 b h
      · exact hdone
    · intro b hb
      obtain rfl : ({ bar with timestamp_end := some t } : RangeBar) = b := by
        simpa using hb
      exact hdone
  · rw [heq]
    refine ⟨?_, ?_, ?_⟩
    · intro b hb
      rw [update_range_bounds_current] at hb
      obtain rfl : RangeBarBuilder.update_bar bar p v = b := by simpa using hb
      simpa [RangeBarBuilder.update_bar] using not_should_lt s.range_size bar p hs
    · intro b hb
      rw [update_range_bounds_completed] at hb
      exact h2 b (by simpa using hb)
    · intro b hb
      cases hb

theorem step_range_size (s : MarketDataManagerState) (e : TradeEvent) :
    (MarketDataManager.process_validated s e).1.bars.range_size =
      s.bars.range_size := by
  rw [process_validated_bars_eq, update_current_profile_range_size,
    bars_process_range_size]

theorem step_range (s : MarketDataManagerState) (e : TradeEvent) (hr : RangeInv s) :
    RangeInv (MarketDataManager.process_validated s e).1
    ∧ (∀ b, (MarketDataManager.process_validated s e).2.completed_bar = some b →
        b.high - b.low < s.bars.range_size) := by
  obtain ⟨hrs, h1, h2⟩ := hr
  obtain ⟨g1, g2, g3⟩ := bars_process_range s.bars e.price e.volume e.timestamp hrs h1 h2
  have hrsz := step_range_size s e
  refine ⟨⟨by rw [hrsz]; exact hrs, ?_, ?_⟩, ?_⟩
  · intro b hb
    rw [process_validated_bars_eq] at hb
    obtain ⟨b0, hb0, _, hh, hl, _⟩ := update_current_profile_current _ _ _ _ b hb
    rw [hrsz, hh, hl]
    exact g1 b0 hb0
  · intro b hb
    rw [process_validated_bars_eq, update_current_profile_completed] at hb
    rw [hrsz]
    exact g2 b hb
  · intro b hb
    rw [process_validated_completed_bar_eq] at hb
    exact g3 b hb

theorem run_range (ts : List TradeEvent) :
    ∀ s : MarketDataManagerState, RangeInv s →
      RangeInv (MarketDataManager.run s ts).1
      ∧ (MarketDataManager.run s ts).1.bars.range_size = s.bars.range_size
      ∧ (∀ b ∈ (MarketDataManager.run s ts).2.2,
          b.high - b.low < s.bars.range_size) := by
  induction ts with
  | nil =>
    intro s hr
    refine ⟨hr, rfl, ?_⟩
    intro b hb
    simp [MarketDataManager.run] at hb
  | cons e es ih =>
    intro s hr
    obtain ⟨hr', hbar⟩ := step_range s e hr
    obtain ⟨hr2, hsz2, hbars2⟩ := ih (MarketDataManager.process_validated s e).1 hr'
    refine ⟨?_, ?_, ?_⟩
    · simpa [MarketDataManager.run] using hr2
    · show (MarketDataManager.run (MarketDataManager.process_validated s e).1 es).1.bars.range_size
        = s.bars.range_size
      rw [hsz2, step_range_size]
    · intro b hb
      simp only [MarketDataManager.run, List.mem_append, Option.mem_toList,
        Option.mem_def] at hb
      rcases hb with hb | hb
      · exact hbar b hb
      · rw [← step_range_size s e]
        exact hbars2 b hb

theorem run_candle_chain (ts : List TradeEvent) :
    ∀ (s : MarketDataManagerState) (P : List CVDCandle),
      1 ≤ s.cvd.max_history →
      CandleInv s P.getLast? →
      List.Chain' (fun a b => b.open_ = a.close) P →
      (∀ c ∈ P.head?, c.open_ = 0) →
      List.Chain' (fun a b => b.open_ = a.close)
        (P ++ (MarketDataManager.run s ts).2.1)
      ∧ (∀ c ∈ (P ++ (MarketDataManager.run s ts).2.1).head?, c.open_ = 0) := by
  induction ts with
  | nil =>
    intro s P _ _ hch hh
    simpa [MarketDataManager.run] using ⟨hch, hh⟩
  | cons e es ih =>
    intro s P hm hinv hch hh
    obtain ⟨hemit, hinv', hmax'⟩ := step_candle_inv s P.getLast? e hm hinv
    rcases hcc : (MarketDataManager.process_validated s e).2.completed_cvd with _ | c
    · have h1 : (MarketDataManager.run s (e :: es)).2.1 =
          (MarketDataManager.run (MarketDataManager.process_validated s e).1 es).2.1 := by
        simp [MarketDataManager.run, hcc]
      rw [h1]
      have hinv2 : CandleInv (MarketDataManager.process_validated s e).1 P.getLast? := by
        rw [hcc] at hinv'
        exact hinv'
      exact ih _ P (by rw [hmax']; exact hm) hinv2 hch hh
    · have h1 : (MarketDataManager.run s (e :: es)).2.1 =
          c :: (MarketDataManager.run (MarketDataManager.process_validated s e).1 es).2.1 := by
        simp [MarketDataManager.run, hcc]
      rw [h1, List.append_cons]
      have hop : c.open_ = lastClose P.getLast? := hemit c hcc
      have hch' : List.Chain' (fun a b => b.open_ = a.close) (P ++ [c]) := by
        refine chain'_concat_of hch ?_
        intro x hx
        rw [hop]
        rcases hP : P.getLast? with _ | x'
        · rw [hP] at hx
          cases hx
        · rw [hP] at hx
          obtain rfl : x' = x := by simpa using hx
          rfl
      have hh' : ∀ c0 ∈ (P ++ [c]).head?, c0.open_ = 0 := by
        rcases P with _ | ⟨p0, ps⟩
        · intro c0 hc0
          simp only [List.nil_append, List.head?_cons, Option.mem_def,
            Option.some.injEq] at hc0
          subst hc0
          rw [hop]
          rfl
        · intro c0 hc0
          simp only [List.cons_append, List.head?_cons, Option.mem_def,
            Option.some.injEq] at hc0
          subst hc0
          exact hh p0 (by simp)
      have hinv2 : CandleInv (MarketDataManager.process_validated s e).1
          (P ++ [c]).getLast? := by
        rw [List.getLast?_concat]
        rw [hcc] at hinv'
        exact hinv'
      exact ih _ (P ++ [c]) (by rw [hmax']; exact hm) hinv2 hch' hh'

/-! ## Claim theorems -/

/-- C1: in a state with an open bar of high `H` and low `L`, a trade at price
`P` starts a new bar iff `max H P - min L P ≥ range_size`; when the breakout
fires the current bar is completed with its open, high, low, close, volume and
trade count exactly as they were before the trade, and the new bar opens with
open = high = low = close = `P`, volume equal to the trade's volume, and trade
count 1. -/
theorem breakout_fires_iff_range_reached (s : RangeBarManagerState) (bar : RangeBar)
    (p v t : ℚ) (hfirst : s.first_trade_processed = true)
    (hcur : s.current_bar = some bar) :
    ((RangeBarManager.process_trade s p v t).1 = true ↔
      s.range_size ≤ max bar.high p - min bar.low p)
    ∧ (s.range_size ≤ max bar.high p - min bar.low p →
        (RangeBarManager.process_trade s p v t).2.1 =
          some { bar with timestamp_end := some t }
        ∧ ((RangeBarManager.process_trade s p v t).2.2).current_bar = some
            { open_ := p, high := p, low := p, close := p, volume := v,
              timestamp_start := t, timestamp_end := none, trade_count := 1,
              volume_profile := some { tick_size := s.volume_tick_size } }) := by
  constructor
  · by_cases hs : s.range_size ≤ max bar.high p - min bar.low p
    · simp [RangeBarManager.process_trade, hfirst, hcur,
        RangeBarBuilder.should_create_new_bar, hs]
    · simp [RangeBarManager.process_trade, hfirst, hcur,
        RangeBarBuilder.should_create_new_bar, hs]
  · intro hs
    constructor
    · simp [RangeBarManager.process_trade, hfirst, hcur,
        RangeBarBuilder.should_create_new_bar, hs,
        RangeBarManager.complete_current_bar]
    · simp [RangeBarManager.process_trade, hfirst, hcur,
        RangeBarBuilder.should_create_new_bar, hs,
        RangeBarManager.complete_current_bar, RangeBarManager.create_new_bar,
        RangeBarManager.set_range_bounds, RangeBarBuilder.create_bar]

/-- Witness for C1 at a concrete open bar and breakout trade. -/
theorem breakout_fires_iff_range_reached_witness :
    (rangeBarWitnessState.first_trade_processed = true
      ∧ rangeBarWitnessState.current_bar = some rangeBarWitnessBar)
    ∧ (((RangeBarManager.process_trade rangeBarWitnessState 80 1 1002).1 = true ↔
         rangeBarWitnessState.range_size ≤ max rangeBarWitnessBar.high 80 - min rangeBarWitnessBar.low 80)
       ∧ (rangeBarWitnessState.range_size ≤ max rangeBarWitnessBar.high 80 - min rangeBarWitnessBar.low 80 →
           (RangeBarManager.process_trade rangeBarWitnessState 80 1 1002).2.1 =
             some { rangeBarWitnessBar with timestamp_end := some 1002 }
           ∧ ((RangeBarManager.process_trade rangeBarWitnessState 80 1 1002).2.2).current_bar = some
               { open_ := 80, high := 80, low := 80, close := 80, volume := 1,
                 timestamp_start := 1002, timestamp_end := none, trade_count := 1,
                 volume_profile := some { tick_size := rangeBarWitnessState.volume_tick_size } })) :=
  ⟨⟨rfl, rfl⟩, breakout_fires_iff_range_reached rangeBarWitnessState rangeBarWitnessBar 80 1 1002 rfl rfl⟩

/-- C2: over any trade sequence processed by a freshly constructed engine,
the produced CVD candles are continuous — each candle opens at the previous
candle's close — and the very first candle ever produced opens at exactly 0. -/
theorem cvd_candle_continuity (rs vts : ℚ) (mh : ℕ) (hmh : 1 ≤ mh)
    (ts : List TradeEvent) :
    List.Chain' (fun a b => b.open_ = a.close)
      (MarketDataManager.run (MarketDataManager.init rs vts mh) ts).2.1
    ∧ (∀ c ∈ ((MarketDataManager.run (MarketDataManager.init rs vts mh) ts).2.1).head?,
        c.open_ = 0) := by
  have hinv : CandleInv (MarketDataManager.init rs vts mh) ([] : List CVDCandle).getLast? := by
    unfold CandleInv
    refine ⟨rfl, ?_, ?_⟩
    · intro c hc
      cases hc
    · intro _
      exact ⟨rfl, rfl, rfl⟩
  have h := run_candle_chain ts (MarketDataManager.init rs vts mh) [] hmh hinv
    List.chain'_nil (fun c hc => by cases hc)
  simpa using h

/-- Witness for C2: the three-trade breakout scenario produces a candle list
satisfying the continuity chain with first open 0. -/
theorem cvd_candle_continuity_witness :
    1 ≤ 100
    ∧ (List.Chain' (fun a b => b.open_ = a.close)
        (MarketDataManager.run (MarketDataManager.init 20 1 100)
          [⟨100, 1, Side.buy, 1000⟩, ⟨108, 1, Side.buy, 1001⟩,
           ⟨80, 1, Side.sell, 1002⟩]).2.1
      ∧ (∀ c ∈ ((MarketDataManager.run (MarketDataManager.init 20 1 100)
          [⟨100, 1, Side.buy, 1000⟩, ⟨108, 1, Side.buy, 1001⟩,
           ⟨80, 1, Side.sell, 1002⟩]).2.1).head?, c.open_ = 0)) :=
  ⟨by norm_num,
   cvd_candle_continuity 20 1 100 (by norm_num)
     [⟨100, 1, Side.buy, 1000⟩, ⟨108, 1, Side.buy, 1001⟩, ⟨80, 1, Side.sell, 1002⟩]⟩

/-- C3: starting from a state whose cumulative CVD is 0 (fresh engine or just
after a reset), processing valid trades whose timestamps all fall on the same
UTC calendar date as the last reset leaves the cumulative CVD equal to the
exact sum of signed volumes (+volume for a buy, -volume for a sell). -/
theorem cvd_equals_signed_volume_sum (s : MarketDataManagerState)
    (ts : List TradeEvent) (h0 : s.cvd.cumulative_cvd = 0)
    (_hvol : ∀ e ∈ ts, 0 ≤ e.volume ∧ 0 < e.price)
    (hd : ∀ e ∈ ts, utcDay e.timestamp = utcDay s.cvd.last_reset_timestamp) :
    (MarketDataManager.run s ts).1.cvd.cumulative_cvd = signedVolumeSum ts := by
  rw [run_cvd_sum ts s hd, h0, zero_add]

/-- Witness for C3: two same-day trades against a fresh engine sum to a CVD
of 3 - 1 = 2. -/
theorem cvd_equals_signed_volume_sum_witness :
    ((MarketDataManager.init 20 1 100).cvd.cumulative_cvd = 0
      ∧ (∀ e ∈ [cvdSumWitnessTrade1, cvdSumWitnessTrade2], 0 ≤ e.volume ∧ 0 < e.price)
      ∧ (∀ e ∈ [cvdSumWitnessTrade1, cvdSumWitnessTrade2],
          utcDay e.timestamp = utcDay (MarketDataManager.init 20 1 100).cvd.last_reset_timestamp))
    ∧ (MarketDataManager.run (MarketDataManager.init 20 1 100)
        [cvdSumWitnessTrade1, cvdSumWitnessTrade2]).1.cvd.cumulative_cvd =
      signedVolumeSum [cvdSumWitnessTrade1, cvdSumWitnessTrade2] := by
  have hvol : ∀ e ∈ [cvdSumWitnessTrade1, cvdSumWitnessTrade2], 0 ≤ e.volume ∧ 0 < e.price := by
    intro e he
    simp only [List.mem_cons, List.mem_singleton, List.not_mem_nil, or_false] at he
    rcases he with rfl | rfl <;>
      constructor <;> norm_num [cvdSumWitnessTrade1, cvdSumWitnessTrade2]
  have hd : ∀ e ∈ [cvdSumWitnessTrade1, cvdSumWitnessTrade2],
      utcDay e.timestamp = utcDay (MarketDataManager.init 20 1 100).cvd.last_reset_timestamp := by
    intro e he
    simp only [List.mem_cons, List.mem_singleton, List.not_mem_nil, or_false] at he
    rcases he with rfl | rfl <;>
      norm_num [cvdSumWitnessTrade1, cvdSumWitnessTrade2, utcDay,
        MarketDataManager.init]
  exact ⟨⟨rfl, hvol, hd⟩,
    cvd_equals_signed_volume_sum (MarketDataManager.init 20 1 100)
      [cvdSumWitnessTrade1, cvdSumWitnessTrade2] rfl hvol hd⟩

/-- C4: every range bar the engine ever holds or emits satisfies
low ≤ open ≤ high and low ≤ close ≤ high, every CVD candle satisfies
high ≥ low, and both creating a bar and absorbing a trade into a bar preserve
these inequalities. -/
theorem ohlc_invariants_hold (rs vts : ℚ) (mh : ℕ) (ts : List TradeEvent) :
    ((∀ b, (MarketDataManager.run (MarketDataManager.init rs vts mh) ts).1.bars.current_bar
        = some b → BarWF b)
     ∧ (∀ b ∈ (MarketDataManager.run (MarketDataManager.init rs vts mh) ts).1.bars.completed_bars,
        BarWF b)
     ∧ (∀ b ∈ (MarketDataManager.run (MarketDataManager.init rs vts mh) ts).2.2, BarWF b)
     ∧ (∀ c, (MarketDataManager.run (MarketDataManager.init rs vts mh) ts).1.cvd.current_cvd_candle
        = some c → CandleWF c)
     ∧ (∀ c ∈ (MarketDataManager.run (MarketDataManager.init rs vts mh) ts).1.cvd.completed_cvd_candles,
        CandleWF c)
     ∧ (∀ c ∈ (MarketDataManager.run (MarketDataManager.init rs vts mh) ts).2.1, CandleWF c))
    ∧ (∀ p v t : ℚ, BarWF (RangeBarBuilder.create_bar p v t))
    ∧ (∀ (b : RangeBar) (p v : ℚ), BarWF b → BarWF (RangeBarBuilder.update_bar b p v)) := by
  have hw0 : WFInv (MarketDataManager.init rs vts mh) := by
    unfold WFInv
    refine ⟨?_, ?_, ?_, ?_⟩
    · intro b hb
      cases hb
    · intro b hb
      cases hb
    · intro c hc
      cases hc
    · intro c hc
      cases hc
  obtain ⟨⟨hw1, hw2, hw3, hw4⟩, hbars, hcnds⟩ :=
    run_wf ts (MarketDataManager.init rs vts mh) hw0
  exact ⟨⟨hw1, hw2, hbars, hw3, hw4, hcnds⟩, barWF_create, barWF_update⟩

/-- Witness for C4: preservation instantiated on the concrete witness bar. -/
theorem ohlc_invariants_hold_witness :
    BarWF rangeBarWitnessBar
    ∧ BarWF (RangeBarBuilder.create_bar 80 1 1002)
    ∧ BarWF (RangeBarBuilder.update_bar rangeBarWitnessBar 105 1) := by
  have hwf : BarWF rangeBarWitnessBar := by
    unfold BarWF rangeBarWitnessBar
    norm_num
  refine ⟨hwf, ?_, ?_⟩
  · exact (ohlc_invariants_hold 20 1 100 []).2.1 80 1 1002
  · exact (ohlc_invariants_hold 20 1 100 []).2.2 rangeBarWitnessBar 105 1 hwf

/-- C10: with a positive range size, every range bar the engine ever holds or
emits satisfies `high - low < range_size` (strict); moreover absorbing any
non-breakout trade leaves `remaining = range_size - (high - low)` strictly
positive, so the recentering always takes the positive branch and the
collapse-to-`[low, high]` branch is dead code. -/
theorem bar_range_strictly_below_range_size (rs vts : ℚ) (mh : ℕ) (hrs : 0 < rs)
    (ts : List TradeEvent) :
    ((∀ b, (MarketDataManager.run (MarketDataManager.init rs vts mh) ts).1.bars.current_bar
        = some b → b.high - b.low < rs)
     ∧ (∀ b ∈ (MarketDataManager.run (MarketDataManager.init rs vts mh) ts).1.bars.completed_bars,
        b.high - b.low < rs)
     ∧ (∀ b ∈ (MarketDataManager.run (MarketDataManager.init rs vts mh) ts).2.2,
        b.high - b.low < rs))
    ∧ (∀ (s' : RangeBarManagerState) (bar : RangeBar) (p v t : ℚ),
        s'.first_trade_processed = true → s'.current_bar = some bar →
        RangeBarBuilder.should_create_new_bar s'.range_size (some bar) p = false →
        0 < s'.range_size - ((RangeBarBuilder.update_bar bar p v).high -
            (RangeBarBuilder.update_bar bar p v).low)
        ∧ (RangeBarManager.process_trade s' p v t).2.2.current_range_low =
            some ((RangeBarBuilder.update_bar bar p v).low -
              (s'.range_size - ((RangeBarBuilder.update_bar bar p v).high -
                (RangeBarBuilder.update_bar bar p v).low)) / 2)
        ∧ (RangeBarManager.process_trade s' p v t).2.2.current_range_high =
            some ((RangeBarBuilder.update_bar bar p v).high +
              (s'.range_size - ((RangeBarBuilder.update_bar bar p v).high -
                (RangeBarBuilder.update_bar bar p v).low)) / 2)) := by
  constructor
  · have hr0 : RangeInv (MarketDataManager.init rs vts mh) := by
      unfold RangeInv
      refine ⟨hrs, ?_, ?_⟩
      · intro b hb
        cases hb
      · intro b hb
        cases hb
    obtain ⟨⟨_, g1, g2⟩, hsz, g3⟩ := run_range ts (MarketDataManager.init rs vts mh) hr0
    refine ⟨?_, ?_, ?_⟩
    · intro b hb
      have := g1 b hb
      rwa [hsz] at this
    · intro b hb
      have := g2 b hb
      rwa [hsz] at this
    · intro b hb
      exact g3 b hb
  · intro s' bar p v t hfirst hcur habsorb
    have hrem : 0 < s'.range_size - ((RangeBarBuilder.update_bar bar p v).high -
        (RangeBarBuilder.update_bar bar p v).low) := by
      have hlt := not_should_lt s'.range_size bar p habsorb
      simpa [RangeBarBuilder.update_bar] using sub_pos.mpr hlt
    have hp : RangeBarManager.process_trade s' p v t =
        (false, none, RangeBarManager.update_range_bounds
          { s' with current_bar := some (RangeBarBuilder.update_bar bar p v) }) := by
      simp [RangeBarManager.process_trade, hfirst, hcur, habsorb]
    refine ⟨hrem, ?_, ?_⟩ <;>
      rw [hp] <;>
      simp [RangeBarManager.update_range_bounds, hrem]

/-- Witness for C10: the strict bound on the spec scenario's open bar and the
positive remaining range after absorbing the trade at 108. -/
theorem bar_range_strictly_below_range_size_witness :
    ((0 : ℚ) < 20
      ∧ rangeBarWitnessState2.first_trade_processed = true
      ∧ rangeBarWitnessState2.current_bar = some rangeBarWitnessBar2
      ∧ RangeBarBuilder.should_create_new_bar rangeBarWitnessState2.range_size
          (some rangeBarWitnessBar2) 108 = false)
    ∧ 0 < rangeBarWitnessState2.range_size -
        ((RangeBarBuilder.update_bar rangeBarWitnessBar2 108 1).high -
          (RangeBarBuilder.update_bar rangeBarWitnessBar2 108 1).low)
    ∧ (∀ b, (MarketDataManager.run (MarketDataManager.init 20 1 100) []).1.bars.current_bar
        = some b → b.high - b.low < 20) := by
  have hsc : RangeBarBuilder.should_create_new_bar rangeBarWitnessState2.range_size
      (some rangeBarWitnessBar2) 108 = false := by
    norm_num [RangeBarBuilder.should_create_new_bar, rangeBarWitnessState2, rangeBarWitnessBar2]
  refine ⟨⟨by norm_num, rfl, rfl, hsc⟩, ?_, ?_⟩
  · exact ((bar_range_strictly_below_range_size 20 1 100 (by norm_num) []).2
      rangeBarWitnessState2 rangeBarWitnessBar2 108 1 1001 rfl rfl hsc).1
  · exact (bar_range_strictly_below_range_size 20 1 100 (by norm_num) []).1.1

/-- C5 counterexample: a trade with positive price, nonnegative volume and a
non-finite (NaN, respectively infinite) timestamp is accepted by
`TradeValidator.validate_trade`, while the claim states every trade with a
non-finite timestamp is rejected. -/
theorem validate_trade_accepts_nonfinite_timestamp :
    TradeValidator.validate_trade (RawVal.num 100) (RawVal.num 1) RawVal.nan
      = Except.ok (100, 1, FloatVal.nan)
    ∧ TradeValidator.validate_trade (RawVal.num 100) (RawVal.num 1) RawVal.inf
      = Except.ok (100, 1, FloatVal.inf) := by
  constructor <;> rfl

/-- C5 (amended): the validator rejects, identifying the offending field,
every trade whose price is non-positive, non-finite or unparsable, whose
volume is negative, non-finite or unparsable, or whose timestamp is
unparsable or compares below zero (negative finite values and negative
infinity); NaN and positive-infinity timestamps are accepted, and every
accepted trade is returned as its exact parsed (price, volume, timestamp). -/
theorem validate_trade_matches_amended_spec (p v t : RawVal) :
    TradeValidator.validate_trade p v t = spec_validate_trade p v t := by
  cases p <;> cases v <;> cases t <;>
    simp only [TradeValidator.validate_trade, TradeValidator.validate_price,
      TradeValidator.validate_volume, TradeValidator.validate_timestamp,
      spec_validate_trade, bind, Except.bind, pure, Except.pure] <;>
    split_ifs <;> first
      | rfl
      | omega
      | (exfalso; linarith)

/-- C6: `check_and_reset t` returns true iff the UTC calendar date of `t` is
strictly later than that of the last reset; when it returns true it zeroes the
cumulative and per-bar CVD and records `t` as the new reset time, when it
returns false it changes nothing, and in either case the completed CVD-candle
history and the active candle are untouched. -/
theorem check_and_reset_spec (s : CVDManagerState) (t : ℚ) :
    ((CVDManager.check_and_reset s t).1 = true ↔
      utcDay s.last_reset_timestamp < utcDay t)
    ∧ ((CVDManager.check_and_reset s t).1 = true →
        (CVDManager.check_and_reset s t).2 =
          { s with cumulative_cvd := 0, current_bar_cvd := 0,
                   last_reset_timestamp := t })
    ∧ ((CVDManager.check_and_reset s t).1 = false →
        (CVDManager.check_and_reset s t).2 = s)
    ∧ ((CVDManager.check_and_reset s t).2).completed_cvd_candles =
        s.completed_cvd_candles
    ∧ ((CVDManager.check_and_reset s t).2).current_cvd_candle =
        s.current_cvd_candle := by
  by_cases h : utcDay s.last_reset_timestamp < utcDay t <;>
    simp [CVDManager.check_and_reset, CVDManager.reset, h]

/-- Witness for C6: a reset fires one UTC day after the epoch and zeroes the
CVD state of a concrete manager. -/
theorem check_and_reset_spec_witness :
    ((CVDManager.check_and_reset cvdWitnessState 90000).1 = true ↔
      utcDay cvdWitnessState.last_reset_timestamp < utcDay 90000)
    ∧ ((CVDManager.check_and_reset cvdWitnessState 90000).1 = true →
        (CVDManager.check_and_reset cvdWitnessState 90000).2 =
          { cvdWitnessState with cumulative_cvd := 0, current_bar_cvd := 0,
                                 last_reset_timestamp := 90000 })
    ∧ ((CVDManager.check_and_reset cvdWitnessState 90000).1 = false →
        (CVDManager.check_and_reset cvdWitnessState 90000).2 = cvdWitnessState)
    ∧ ((CVDManager.check_and_reset cvdWitnessState 90000).2).completed_cvd_candles =
        cvdWitnessState.completed_cvd_candles
    ∧ ((CVDManager.check_and_reset cvdWitnessState 90000).2).current_cvd_candle =
        cvdWitnessState.current_cvd_candle :=
  check_and_reset_spec cvdWitnessState 90000

/-- C7: absorbing a non-breakout trade updates the bar and recomputes the
displayed bounds from `remaining = range_size - (high - low)`: recentered to
`[low - remaining/2, high + remaining/2]` when `remaining > 0` and collapsed
to `[low, high]` otherwise; and the first trade of a bar (initial or
post-breakout) centers the bounds at `price ± range_size/2`. -/
theorem range_bounds_recentering (s : RangeBarManagerState) (bar : RangeBar)
    (p v t : ℚ) (hfirst : s.first_trade_processed = true)
    (hcur : s.current_bar = some bar)
    (habsorb : RangeBarBuilder.should_create_new_bar s.range_size (some bar) p = false) :
    ((RangeBarManager.process_trade s p v t).2.2.current_bar =
        some (RangeBarBuilder.update_bar bar p v)
      ∧ (0 < s.range_size - ((RangeBarBuilder.update_bar bar p v).high -
            (RangeBarBuilder.update_bar bar p v).low) →
          (RangeBarManager.process_trade s p v t).2.2.current_range_low =
            some ((RangeBarBuilder.update_bar bar p v).low -
              (s.range_size - ((RangeBarBuilder.update_bar bar p v).high -
                (RangeBarBuilder.update_bar bar p v).low)) / 2)
          ∧ (RangeBarManager.process_trade s p v t).2.2.current_range_high =
            some ((RangeBarBuilder.update_bar bar p v).high +
              (s.range_size - ((RangeBarBuilder.update_bar bar p v).high -
                (RangeBarBuilder.update_bar bar p v).low)) / 2))
      ∧ (¬ 0 < s.range_size - ((RangeBarBuilder.update_bar bar p v).high -
            (RangeBarBuilder.update_bar bar p v).low) →
          (RangeBarManager.process_trade s p v t).2.2.current_range_low =
            some (RangeBarBuilder.update_bar bar p v).low
          ∧ (RangeBarManager.process_trade s p v t).2.2.current_range_high =
            some (RangeBarBuilder.update_bar bar p v).high))
    ∧ (∀ (s' : RangeBarManagerState) (q w u : ℚ),
        (RangeBarManager.initialize_first_bar s' q w u).current_range_low =
          some (q - s'.range_size / 2)
        ∧ (RangeBarManager.initialize_first_bar s' q w u).current_range_high =
          some (q + s'.range_size / 2)
        ∧ (RangeBarManager.create_new_bar s' q w u).current_range_low =
          some (q - s'.range_size / 2)
        ∧ (RangeBarManager.create_new_bar s' q w u).current_range_high =
          some (q + s'.range_size / 2)) := by
  constructor
  · have hp : RangeBarManager.process_trade s p v t =
        (false, none, RangeBarManager.update_range_bounds
          { s with current_bar := some (RangeBarBuilder.update_bar bar p v) }) := by
      simp [RangeBarManager.process_trade, hfirst, hcur, habsorb]
    rw [hp]
    by_cases hr : 0 < s.range_size - ((RangeBarBuilder.update_bar bar p v).high -
        (RangeBarBuilder.update_bar bar p v).low) <;>
      simp [RangeBarManager.update_range_bounds, hr]
  · intro s' q w u
    refine ⟨rfl, rfl, rfl, rfl⟩

/-- Witness for C7 at the spec's worked scenario: the trade at 108 is absorbed
and the bounds recenter to [94, 114]. -/
theorem range_bounds_recentering_witness :
    (rangeBarWitnessState2.first_trade_processed = true
      ∧ rangeBarWitnessState2.current_bar = some rangeBarWitnessBar2
      ∧ RangeBarBuilder.should_create_new_bar rangeBarWitnessState2.range_size
          (some rangeBarWitnessBar2) 108 = false)
    ∧ (RangeBarManager.process_trade rangeBarWitnessState2 108 1 1001).2.2.current_range_low =
        some 94
    ∧ (RangeBarManager.process_trade rangeBarWitnessState2 108 1 1001).2.2.current_range_high =
        some 114 := by
  have hrem : 0 < rangeBarWitnessState2.range_size -
      ((RangeBarBuilder.update_bar rangeBarWitnessBar2 108 1).high -
        (RangeBarBuilder.update_bar rangeBarWitnessBar2 108 1).low) := by
    norm_num [rangeBarWitnessState2, rangeBarWitnessBar2, RangeBarBuilder.update_bar]
  have hsc : RangeBarBuilder.should_create_new_bar rangeBarWitnessState2.range_size
      (some rangeBarWitnessBar2) 108 = false := by
    norm_num [RangeBarBuilder.should_create_new_bar, rangeBarWitnessState2, rangeBarWitnessBar2]
  have h := (range_bounds_recentering rangeBarWitnessState2 rangeBarWitnessBar2
    108 1 1001 rfl rfl hsc).1.2.1 hrem
  refine ⟨⟨rfl, rfl, hsc⟩, ?_, ?_⟩
  · rw [h.1]
    norm_num [rangeBarWitnessState2, rangeBarWitnessBar2, RangeBarBuilder.update_bar]
  · rw [h.2]
    norm_num [rangeBarWitnessState2, rangeBarWitnessBar2, RangeBarBuilder.update_bar]

/-- C8: processing the same ordered trade sequence through two freshly
constructed engines yields identical completed-bar series, CVD candle series
and POC confluence output. -/
theorem replay_determinism (rs vts : ℚ) (mh : ℕ) (ts : List TradeEvent) (n : ℕ) :
    (MarketDataManager.run (MarketDataManager.init rs vts mh) ts).2.2 =
      (MarketDataManager.run (MarketDataManager.init rs vts mh) ts).2.2
    ∧ (MarketDataManager.run (MarketDataManager.init rs vts mh) ts).1.bars.completed_bars =
      (MarketDataManager.run (MarketDataManager.init rs vts mh) ts).1.bars.completed_bars
    ∧ (MarketDataManager.run (MarketDataManager.init rs vts mh) ts).2.1 =
      (MarketDataManager.run (MarketDataManager.init rs vts mh) ts).2.1
    ∧ (MarketDataManager.run (MarketDataManager.init rs vts mh) ts).1.cvd.completed_cvd_candles =
      (MarketDataManager.run (MarketDataManager.init rs vts mh) ts).1.cvd.completed_cvd_candles
    ∧ POCTracker.get_strongest_levels
        (MarketDataManager.run (MarketDataManager.init rs vts mh) ts).1.poc n =
      POCTracker.get_strongest_levels
        (MarketDataManager.run (MarketDataManager.init rs vts mh) ts).1.poc n :=
  ⟨rfl, rfl, rfl, rfl, rfl⟩

/-- C9: when validation rejects a trade, `process_trade` propagates the
validation error, the error counter increments, and every other component of
the engine state — bars, CVD, POC confluence, lifetime counters and the other
metrics — is exactly as before the call. -/
theorem validation_error_counts_and_preserves (s : MarketDataManagerState)
    (p v t : RawVal) (sd : Side) (f : ValField)
    (hval : TradeValidator.validate_trade p v t = Except.error f)
    (hen : s.metrics.enabled = true) :
    (MarketDataManager.process_raw s p v t sd).2 =
      Except.error (MarketDataManager.ProcError.validation f)
    ∧ (MarketDataManager.process_raw s p v t sd).1.bars = s.bars
    ∧ (MarketDataManager.process_raw s p v t sd).1.cvd = s.cvd
    ∧ (MarketDataManager.process_raw s p v t sd).1.poc = s.poc
    ∧ (MarketDataManager.process_raw s p v t sd).1.total_volume_processed =
        s.total_volume_processed
    ∧ (MarketDataManager.process_raw s p v t sd).1.total_trades_processed =
        s.total_trades_processed
    ∧ (MarketDataManager.process_raw s p v t sd).1.metrics.errors_count =
        s.metrics.errors_count + 1
    ∧ (MarketDataManager.process_raw s p v t sd).1.metrics.trades_processed =
        s.metrics.trades_processed
    ∧ (MarketDataManager.process_raw s p v t sd).1.metrics.bars_completed =
        s.metrics.bars_completed
    ∧ (MarketDataManager.process_raw s p v t sd).1.metrics.cvd_reset_events =
        s.metrics.cvd_reset_events := by
  simp [MarketDataManager.process_raw, hval, MetricsCollector.record_error, hen]

/-- Witness for C9: a negative-price trade against a fresh engine is rejected
with the price field and only the error counter moves. -/
theorem validation_error_counts_and_preserves_witness :
    (TradeValidator.validate_trade (RawVal.num (-5)) (RawVal.num 1) (RawVal.num 10)
        = Except.error ValField.price
      ∧ (MarketDataManager.init 20 1 100).metrics.enabled = true)
    ∧ (MarketDataManager.process_raw (MarketDataManager.init 20 1 100)
        (RawVal.num (-5)) (RawVal.num 1) (RawVal.num 10) Side.buy).2 =
        Except.error (MarketDataManager.ProcError.validation ValField.price)
    ∧ (MarketDataManager.process_raw (MarketDataManager.init 20 1 100)
        (RawVal.num (-5)) (RawVal.num 1) (RawVal.num 10) Side.buy).1.metrics.errors_count =
        (MarketDataManager.init 20 1 100).metrics.errors_count + 1 := by
  have hval : TradeValidator.validate_trade (RawVal.num (-5)) (RawVal.num 1) (RawVal.num 10)
      = Except.error ValField.price := by
    have hp : TradeValidator.validate_price (RawVal.num (-5)) = Except.error ValField.price := by
      simp [TradeValidator.validate_price, show ((-5:ℚ) ≤ 0) by norm_num]
    simp only [TradeValidator.validate_trade, hp]
    rfl
  refine ⟨⟨hval, rfl⟩, ?_, ?_⟩
  · exact (validation_error_counts_and_preserves (MarketDataManager.init 20 1 100)
      (RawVal.num (-5)) (RawVal.num 1) (RawVal.num 10) Side.buy ValField.price
      hval rfl).1
  · exact (validation_error_counts_and_preserves (MarketDataManager.init 20 1 100)
      (RawVal.num (-5)) (RawVal.num 1) (RawVal.num 10) Side.buy ValField.price
      hval rfl).2.2.2.2.2.2.1

end OrderFlow
